import Mathlib

/-!
# Verification development for the course repository `cpp-clean-arch-en`

Shallow embedding of the C++ teaching examples (Observer, Adventure game,
Strategy and text wrapping, library `Member` and `Utils`, Command, Singleton
and game engine, Liskov rectangle, CRTP documents, request builder, fare
calculation) and theorems about them.

Conventions of the embedding
* Objects that live behind `std::shared_ptr` are identified by an address
  (`Addr`).  Addresses are never reused in the model, so comparing the address
  of two live objects is comparing their identity.
* Stateful member functions take the state they read and return the state
  they leave behind together with what they wrote / which virtual calls they
  made (a list of events).
-/

namespace Observer

/-! ## `01 GoF Observer Pattern.cpp` -/

/-- Identity of an observer object. -/
abbrev Addr := Nat

/-- The part of the heap that the observer lists can see: `alive a` holds
while at least one `std::shared_ptr` owns object `a` (an object that is not
managed by a `shared_ptr`, or whose last owner was reset, is not alive in this
sense); `ident a` is what the virtual `GetId()` of object `a` returns. -/
structure Heap where
  alive : Addr → Bool
  ident : Addr → Int

/-- Effect of `o.reset()` on the last owning `std::shared_ptr` of object `a`
(as `printingObserver.reset()` / `o2.reset()` in the demos): the object is
destroyed, every `weak_ptr` to it expires. -/
def Heap.reset (h : Heap) (a : Addr) : Heap :=
  { h with alive := fun b => if b = a then false else h.alive b }

/-- A `std::weak_ptr<Observer>`: empty (`none`) or referring to the control
block of object `a`. -/
abbrev WeakPtr := Option Addr

/-- Model of `std::weak_ptr::lock()`: the owned object if it is still alive, otherwise
a null `shared_ptr` (`none`). -/
def lock (h : Heap) (o : WeakPtr) : Option Addr :=
  match o with
  | none => none
  | some a => if h.alive a then some a else none

/-- Model of `observer.weak_from_this()` (C++17): a weak pointer to the object if it is
owned by a `shared_ptr`, an empty weak pointer otherwise. -/
def weak_from_this (h : Heap) (observer : Addr) : WeakPtr :=
  if h.alive observer then some observer else none

/-- What a subject writes and which virtual calls it makes.
`printed context shown` is the line written by `PrintObservers(context)`:
`some id` stands for `" Observer-<id>"`, `none` for `" Observer-<deleted>"`.
`update a payload` is the virtual call `Update(payload)` on the live object
`a` (for the pull observer, whose `Update()` has no argument, the payload is
`Unit`; for the stock market it is the argument of `NoteUpdatedPrices`). -/
inductive Event (P : Type) where
  | printed (context : String) (shown : List (Option Int))
  | update (a : Addr) (payload : P)
deriving DecidableEq, Repr

/-- The classes `PushSubject` (`P = Int`, `Update(int item)`) and `PullSubject`
(`P = Unit`, `Update()`): both keep
`std::vector<std::weak_ptr<...Observer>> observers` and have textually the
same `Attach`, `Detach`, `Notify` and `PrintObservers`. -/
structure Subject (P : Type) where
  observers : List WeakPtr := []
deriving DecidableEq, Repr

/-- The class `PushSubject`. -/
abbrev PushSubject := Subject Int

/-- The class `PullSubject`. -/
abbrev PullSubject := Subject Unit

/-- Model of `PrintObservers(context)`: one entry per element of `observers`, the id
of the locked observer or `<deleted>`. -/
def Subject.PrintObservers {P : Type} (h : Heap) (s : Subject P) (context : String) :
    Event P :=
  .printed context (s.observers.map fun o =>
    match lock h o with
    | some a => some (h.ident a)
    | none => none)

/-- Model of `Attach(observer)`: `observers.emplace_back(observer.weak_from_this())`, then
`PrintObservers("after attaching")`. -/
def Subject.Attach {P : Type} (h : Heap) (s : Subject P) (observer : Addr) :
    Subject P × List (Event P) :=
  let s1 : Subject P := { observers := s.observers ++ [weak_from_this h observer] }
  (s1, [s1.PrintObservers h "after attaching"])

/-- Model of `Detach(observer)`: the erase/remove_if idiom with the predicate
`o.lock() && (o.lock().get() == &observer)`, then
`PrintObservers("after detaching")`. -/
def Subject.Detach {P : Type} (h : Heap) (s : Subject P) (observer : Addr) :
    Subject P × List (Event P) :=
  let s1 : Subject P :=
    { observers := s.observers.filter fun o =>
        !((lock h o).isSome && (lock h o == some observer)) }
  (s1, [s1.PrintObservers h "after detaching"])

/-- The loop of `Notify`: `for (auto o : observers) { auto observer_ptr{o.lock()};
if (observer_ptr) { observer_ptr->Update(payload); } }`.  The virtual `Update`
is recorded as a call; like the printing observers of the demos it is taken
to return normally and to leave the observer list and the other observers
alone. -/
def notifyLoop {P : Type} (h : Heap) (payload : P) : List WeakPtr → List (Event P)
  | [] => []
  | o :: rest =>
    match lock h o with
    | some a => Event.update a payload :: notifyLoop h payload rest
    | none => notifyLoop h payload rest

/-- Model of `Notify(item)` / `Notify()`: `PrintObservers("before notifying")`, then the
loop over the observers. -/
def Subject.Notify {P : Type} (h : Heap) (s : Subject P) (payload : P) : List (Event P) :=
  s.PrintObservers h "before notifying" :: notifyLoop h payload s.observers

/-- The class `PushProducer : public PushSubject`. -/
structure PushProducer extends Subject Int where
  availableItems : List Int := []
deriving DecidableEq, Repr

/-- Model of `PushProducer::ProduceItem(item)`: `availableItems.push_back(item); Notify(item);`. -/
def PushProducer.ProduceItem (h : Heap) (p : PushProducer) (item : Int) :
    PushProducer × List (Event Int) :=
  let p1 : PushProducer := { p with availableItems := p.availableItems ++ [item] }
  (p1, p1.toSubject.Notify h item)

/-- The class `PullProducer : public PullSubject`. -/
structure PullProducer extends Subject Unit where
  availableItems : List Int := []
deriving DecidableEq, Repr

/-- Model of `PullProducer::ProduceItem(item)`: `availableItems.push_back(item); Notify();`. -/
def PullProducer.ProduceItem (h : Heap) (p : PullProducer) (item : Int) :
    PullProducer × List (Event Unit) :=
  let p1 : PullProducer := { p with availableItems := p.availableItems ++ [item] }
  (p1, p1.toSubject.Notify h ())

/-- Model of `PullProducer::GetState()`. -/
def PullProducer.GetState (p : PullProducer) : List Int := p.availableItems

/-- The observer side of `class StockMarket`:
`std::vector<std::weak_ptr<StockObserver>> observers`.  (The stocks and the
random price updates play no part in the notification.) -/
structure StockMarket where
  observers : List WeakPtr := []
deriving DecidableEq, Repr

/-- Model of `StockMarket::AttachObserver(std::shared_ptr<StockObserver> observer)`:
`observers.push_back(observer)`.  The argument is a `shared_ptr`, null
(`none`) or owning object `a`; converting it gives an empty weak pointer or a
weak pointer to `a`. -/
def StockMarket.AttachObserver (m : StockMarket) (observer : Option Addr) : StockMarket :=
  { observers := m.observers ++ [observer] }

/-- Model of `StockMarket::NotifyObservers(stocks)`:
`for (auto& observer : observers) { std::shared_ptr<StockObserver>
observer_ptr{observer.lock()}; if (observer_ptr)
observer_ptr->NoteUpdatedPrices(stocks); }`, the same loop as in `Notify`
with `NoteUpdatedPrices` as the update operation (and no `PrintObservers`). -/
def StockMarket.NotifyObservers {S : Type} (h : Heap) (m : StockMarket) (stocks : S) :
    List (Event S) :=
  notifyLoop h stocks m.observers

/-- One call made by the program that uses a subject: `Attach(*o)`,
`Detach(*o)`, `o.reset()` on the owning pointer of an observer, or `Notify`. -/
inductive Op (P : Type) where
  | attach (o : Addr)
  | detach (o : Addr)
  | reset (o : Addr)
  | notify (payload : P)
deriving DecidableEq, Repr

/-- State of a program that uses one subject: the heap and the subject. -/
structure Prog (P : Type) where
  heap : Heap
  subject : Subject P

/-- Effect of one call on the program state, with the events it produces. -/
def Prog.step {P : Type} (w : Prog P) : Op P → Prog P × List (Event P)
  | .attach o =>
    let r := w.subject.Attach w.heap o
    ({ w with subject := r.1 }, r.2)
  | .detach o =>
    let r := w.subject.Detach w.heap o
    ({ w with subject := r.1 }, r.2)
  | .reset o => ({ w with heap := w.heap.reset o }, [])
  | .notify payload => (w, w.subject.Notify w.heap payload)

/-- A sequence of calls, executed in order; the events are concatenated. -/
def Prog.run {P : Type} (w : Prog P) : List (Op P) → Prog P × List (Event P)
  | [] => (w, [])
  | op :: ops =>
    let r1 := w.step op
    let r2 := r1.1.run ops
    (r2.1, r1.2 ++ r2.2)

/-- The `Update` calls among a list of events, in order: receiver and payload. -/
def updates {P : Type} : List (Event P) → List (Addr × P)
  | [] => []
  | .update a p :: es => (a, p) :: updates es
  | .printed _ _ :: es => updates es

/-- Whether a `Detach(o)` occurs in a sequence of calls. -/
def detachedLater {P : Type} (o : Addr) (ops : List (Op P)) : Bool :=
  ops.any fun op =>
    match op with
    | .detach x => x == o
    | _ => false

/-- Attachment order, read off the call sequence alone: the observers of the
`Attach` calls, in call order, keeping an `Attach(o)` exactly when `o` is
alive (`live`) and no `Detach(o)` comes later in the sequence. -/
def attachOrder {P : Type} (live : Addr → Bool) : List (Op P) → List Addr
  | [] => []
  | .attach o :: rest =>
    if live o && !(detachedLater o rest) then o :: attachOrder live rest
    else attachOrder live rest
  | _ :: rest => attachOrder live rest

/-- Heap of the demos: the two observers created by `std::make_shared` live at
addresses 1 and 2 and have the ids 1 and 2. -/
def demoHeap : Heap := { alive := fun a => a == 1 || a == 2, ident := fun a => a }

/-- The first cells of the push demo: `PushProducer p{}`, `p.Attach(*o1)`,
`p.Attach(*o2)`, `p.ProduceItem(1)`, `p.ProduceItem(2)`, `p.Detach(*o1)`; the
value is the program state before `p.ProduceItem(3)`. -/
def pushDemoBefore3 : PushProducer :=
  let p : PushProducer := {}
  let p : PushProducer := { p with toSubject := (p.toSubject.Attach demoHeap 1).1 }
  let p : PushProducer := { p with toSubject := (p.toSubject.Attach demoHeap 2).1 }
  let p : PushProducer := (p.ProduceItem demoHeap 1).1
  let p : PushProducer := (p.ProduceItem demoHeap 2).1
  { p with toSubject := (p.toSubject.Detach demoHeap 1).1 }

/-- State reached from an empty `PushSubject` by `Attach(*o1)`, `Attach(*o2)`,
`Attach(*o2)` (the same observer attached a second time) and `o1.reset()`. -/
def doubleAttachProg : Prog Int :=
  (Prog.run ⟨demoHeap, {}⟩ [.attach 1, .attach 2, .attach 2, .reset 1]).1

/-- The last cell of the push demo, continued from `pushDemoBefore3`:
`p.ProduceItem(3)`, `p.Attach(*o1)`, `o2.reset()`; the value is the heap and
the producer before `p.ProduceItem(4)`. -/
def pushDemoBefore4 : Heap × PushProducer :=
  let p : PushProducer := (pushDemoBefore3.ProduceItem demoHeap 3).1
  let p : PushProducer := { p with toSubject := (p.toSubject.Attach demoHeap 1).1 }
  (demoHeap.reset 2, p)

/-- The observers that are locked successfully, in list order. -/
def liveList (h : Heap) (l : List WeakPtr) : List Addr := l.filterMap (lock h)

end Observer


deriving instance DecidableEq for Except

namespace Adventure

/-! ## Adventure game: `09 Adventure Pawn.cpp`, `05 GRASP Creator.cpp`,
`02 Adventure Game UI and Game Loop.cpp` -/

/-- Modelled from the spec: the error taxonomy of the adventure game (section 7);
none of these error classes is declared in the sources. -/
inductive AdventureError where
  | UnknownLocationError
  | NoSuchDirection
  | InvalidActionError
  | NoLegalActionsError
deriving DecidableEq, Repr

/-- The enumeration `enum class Action { Move, SkipTurn };`. -/
inductive Action where
  | Move
  | SkipTurn
deriving DecidableEq, Repr

/-- The class `Pawn` of version 4b: its only state is the pointer `location`
to the current `Location`; `L` is the type of location references. -/
structure Pawn (L : Type) where
  location : L
deriving DecidableEq, Repr

/-- Model of `Pawn::Perform(Action action, const std::string& direction)`:
`switch (action) { case Action::Move: location =
&location->GetConnectedLocation(direction); break; case Action::SkipTurn:
break; }`.  `Location::GetConnectedLocation` is not in the sources and is a
parameter: it returns the connected location or throws an `E`.  `Perform` has
no handler, so a throw leaves the assignment undone and leaves `Perform`.  The
result is the pawn after the call and how the call ended. -/
def Pawn.Perform {L E : Type} (GetConnectedLocation : L → String → Except E L)
    (pawn : Pawn L) (action : Action) (direction : String) : Pawn L × Except E Unit :=
  match action with
  | .Move =>
    match GetConnectedLocation pawn.location direction with
    | .ok target => ({ pawn with location := target }, .ok ())
    | .error e => (pawn, .error e)
  | .SkipTurn => (pawn, .ok ())

/-- Modelled from the spec: `Location::GetConnectedLocation` (the class `Location` is not
in the sources), after section 4.2, "returns the connected Location if
`direction` is a registered outgoing connection, else signals
`NoSuchDirection`".  `connections l` is the mapping from direction to
location that location `l` owns. -/
def GetConnectedLocation {L : Type} (connections : L → List (String × L))
    (location : L) (direction : String) : Except AdventureError L :=
  match (connections location).lookup direction with
  | some target => .ok target
  | none => .error .NoSuchDirection

/-- Connections of the world of scenarios A and B: `Start` connects north to
`Hall`, `Hall` connects south to `Start`. -/
def scenarioConnections (location : String) : List (String × String) :=
  if location = "Start" then [("north", "Hall")]
  else if location = "Hall" then [("south", "Start")]
  else []

/-- Modelled from the spec: the location record `LocationData` (name, description, list
of (direction, target name) pairs); the struct is not in the sources. -/
structure LocationData where
  name : String
  description : String
  connections : List (String × String)
deriving DecidableEq, Repr

/-- Model of `std::unordered_map<std::string, Location>::emplace(key, value)` on an
association list with unique keys: nothing happens if the key is present,
otherwise the pair is inserted. -/
def emplace {Loc : Type} (m : List (String × Loc)) (key : String) (value : Loc) :
    List (String × Loc) :=
  if m.any (fun kv => kv.1 == key) then m else m ++ [(key, value)]

/-- The class `World`: `std::unordered_map<std::string, Location> locations` and
`std::string initialLocationName`. -/
structure World (Loc : Type) where
  locations : List (String × Loc)
  initialLocationName : String
deriving DecidableEq, Repr

/-- The constructor `World::World(const std::vector<LocationData>& locationData,
std::string initialLocationName)` (named `new` here): `locations {}`, `initialLocationName {
std::move(initialLocationName) }`, then `for (const auto& location :
locationData) { locations.emplace(location.name, location); }`
(`locations.reserve` has no visible effect).  `Location`
stands for the construction of a `Location` from its record (the class is not
in the sources).  The result type has room for a thrown error; the body has
no `throw`. -/
def World.new {Loc : Type} (Location : LocationData → Loc)
    (locationData : List LocationData) (initialLocationName : String) :
    Except AdventureError (World Loc) :=
  .ok { locations := locationData.foldl
          (fun m location => emplace m location.name (Location location)) []
        initialLocationName := initialLocationName }

/-- Model of `World::World(const std::vector<data::LocationData>& locationData)`, which
delegates: `World {locationData, locationData[0].name}`.  On an empty vector
`locationData[0]` is undefined behaviour (`none`). -/
def World.WorldFromData {Loc : Type} (Location : LocationData → Loc)
    (locationData : List LocationData) : Option (Except AdventureError (World Loc)) :=
  match locationData with
  | [] => none
  | first :: _ => some (World.new Location locationData first.name)

/-- Model of `World::GetLocations()`. -/
def World.GetLocations {Loc : Type} (w : World Loc) : List (String × Loc) := w.locations

/-- Model of `World::GetInitialLocationName()`. -/
def World.GetInitialLocationName {Loc : Type} (w : World Loc) : String :=
  w.initialLocationName

/-- Records of the world of scenarios A and B. -/
def scenarioData : List LocationData :=
  [ { name := "Start", description := "", connections := [("north", "Hall")] },
    { name := "Hall", description := "", connections := [("south", "Start")] } ]

/-- The calls a `Player` makes on itself to notify its observers. -/
inductive PlayerCall (A : Type) where
  | NotePossibleActions (actions : List A)
deriving DecidableEq, Repr

/-- Model of `Player::GetPossibleActions()` of version 5c: `std::vector<ActionPtr> result
{}; /* fill result with all possible actions */ NotePossibleActions(result);
return result;`.  `fill` stands for the elided code that fills `result` from
the player `player`.  The value is the returned vector and the calls made. -/
def Player.GetPossibleActions {Pl A : Type} (fill : Pl → List A) (player : Pl) :
    List A × List (PlayerCall A) :=
  let result : List A := fill player
  (result, [PlayerCall.NotePossibleActions result])

/-- What can be thrown out of `player.TakeTurn()`, as the two handlers of
`main` tell it apart: a `QuitGameException`, or another `std::exception` with
its `what()` text (objects of other types are not thrown by the game). -/
inductive Exception where
  | QuitGameException
  | std_exception (what : String)
deriving DecidableEq, Repr

/-- Lines written by `main` of version 5c: `turn n player` is
`"Turn n: Player [player]"`, `goodbye` is `"Goodbye!"`, `error what` is
`"Error: what"`. -/
inductive Output (Pl : Type) where
  | turn (n : Nat) (player : Pl)
  | goodbye
  | error (what : String)
deriving DecidableEq, Repr

/-- The loop `for (int i {}; i < 10; ++i) { std::cout << "Turn " << i + 1 << ...;
player.TakeTurn(); }` of `main` (version 5c), with `n = 10 - i` iterations
left.  `TakeTurn` is not in the sources and is a parameter: it changes the
player or throws.  A throw leaves the loop at once; the value is what was
written and how the loop ended. -/
def turnLoop {Pl : Type} (TakeTurn : Pl → Except Exception Pl) :
    Nat → Nat → Pl → List (Output Pl) × Except Exception Pl
  | 0, _, player => ([], .ok player)
  | n + 1, i, player =>
    match TakeTurn player with
    | .error e => ([Output.turn (i + 1) player], .error e)
    | .ok player1 =>
      let r := turnLoop TakeTurn n (i + 1) player1
      (Output.turn (i + 1) player :: r.1, r.2)

/-- The main loop of `main` (version 5c) from the constructed player on:
`try { for ... } catch (const QuitGameException&) { std::cout << "Goodbye!\n";
} catch (const std::exception& e) { std::cout << "Error: " << e.what() <<
'\n'; } return 0;`.  The value is what was written and the return value. -/
def main5c {Pl : Type} (TakeTurn : Pl → Except Exception Pl) (player : Pl) :
    List (Output Pl) × Int :=
  match turnLoop TakeTurn 10 0 player with
  | (out, .ok _) => (out, 0)
  | (out, .error .QuitGameException) => (out ++ [Output.goodbye], 0)
  | (out, .error (.std_exception what)) => (out ++ [Output.error what], 0)

/-- The numbers of the turns that were started, read off the output. -/
def turnsStarted {Pl : Type} : List (Output Pl) → List Nat
  | [] => []
  | .turn n _ :: rest => n :: turnsStarted rest
  | _ :: rest => turnsStarted rest

/-- The line with which `main` reports a caught exception. -/
def report {Pl : Type} : Exception → Output Pl
  | .QuitGameException => .goodbye
  | .std_exception what => .error what

/-- The player after `k` turns that all returned normally (`none` if one of
them threw). -/
def afterTurns {Pl : Type} (TakeTurn : Pl → Except Exception Pl) : Nat → Pl → Option Pl
  | 0, player => some player
  | k + 1, player =>
    match TakeTurn player with
    | .error _ => none
    | .ok player1 => afterTurns TakeTurn k player1

/-- A `TakeTurn` on a player whose whole state is the number of turns taken:
it throws `std::runtime_error("boom")` in the third turn and succeeds in every
other turn. -/
def failsInThirdTurn (turnsTaken : Nat) : Except Exception Nat :=
  if turnsTaken = 2 then .error (.std_exception "boom") else .ok (turnsTaken + 1)

end Adventure

namespace StrategyPattern

/-! ## `03 GoF Strategy Pattern.cpp` -/

/-- The class `Context`: `std::unique_ptr<Strategy> strategy_`, null (`none`) or
owning a strategy object of type `St`. -/
structure Context (St : Type) where
  strategy_ : Option St
deriving DecidableEq, Repr

/-- Model of `Context::ContextInterface()`: `return strategy_->AlgorithmInterface();`.
`AlgorithmInterface` is the virtual, non-const member function of the
strategy objects: it returns a value and may change the strategy object.  On
a null `strategy_` the call is undefined (`none`). -/
def Context.ContextInterface {St F : Type} (AlgorithmInterface : St → F × St)
    (c : Context St) : Option (F × Context St) :=
  match c.strategy_ with
  | none => none
  | some s => some ((AlgorithmInterface s).1, { strategy_ := some (AlgorithmInterface s).2 })

/-- Model of `Context::SetStrategy(strategy)`: `strategy_ = std::move(strategy);`. -/
def Context.SetStrategy {St : Type} (_c : Context St) (strategy : Option St) : Context St :=
  { strategy_ := strategy }

/-- The results of `n` calls of `ContextInterface()` in a row. -/
def Context.callContextInterface {St F : Type} (AlgorithmInterface : St → F × St) :
    Nat → Context St → Option (List F)
  | 0, _ => some []
  | n + 1, c =>
    match c.ContextInterface AlgorithmInterface with
    | none => none
    | some r =>
      match Context.callContextInterface AlgorithmInterface n r.2 with
      | none => none
      | some rs => some (r.1 :: rs)

/-- The results of `n` calls of `AlgorithmInterface()` in a row on a strategy
object. -/
def callAlgorithmInterface {St F : Type} (AlgorithmInterface : St → F × St) :
    Nat → St → List F
  | 0, _ => []
  | n + 1, s =>
    (AlgorithmInterface s).1 :: callAlgorithmInterface AlgorithmInterface n (AlgorithmInterface s).2

/-- The strategy classes of the demo: `ConcreteStrategyA` and
`ConcreteStrategyB`, both derived from `Strategy`, both without data
members. -/
inductive Strategy where
  | ConcreteStrategyA
  | ConcreteStrategyB
deriving DecidableEq, Repr

/-- Model of `ConcreteStrategyA::AlgorithmInterface()` (`return 1.5;`) and
`ConcreteStrategyB::AlgorithmInterface()` (`return 2.0;`).  Both `float`
values are binary fractions and are given as the rationals they denote. -/
def Strategy.AlgorithmInterface : Strategy → ℚ × Strategy
  | .ConcreteStrategyA => (3 / 2, .ConcreteStrategyA)
  | .ConcreteStrategyB => (2, .ConcreteStrategyB)

/-- The class `BlogPost`. -/
structure BlogPost where
  author_ : String
  title_ : String
  text_ : String
deriving DecidableEq, Repr

/-- Lines written by `Blog::Print(width)`: `rule width` is the line
`std::string(width, '-')`, `title t` is `"Title: t"`, `author a` is
`"Author: a"`, `text line` is a line returned by the strategy. -/
inductive BlogLine where
  | rule (width : Int)
  | title (t : String)
  | author (a : String)
  | text (line : String)
deriving DecidableEq, Repr

/-- The class `Blog`: `std::vector<BlogPost> posts_` and
`std::unique_ptr<TextWrapStrategy> strategy_`. -/
structure Blog (St : Type) where
  posts_ : List BlogPost
  strategy_ : Option St
deriving DecidableEq, Repr

/-- How a call of `Blog::Print` ends: it returns; or `std::string(width, '-')`
throws `std::length_error`; or it dereferences a null `strategy_` (undefined
behaviour); or the call of `Wrap` does not return normally. -/
inductive PrintEnd where
  | returned
  | length_error
  | nullStrategy
  | wrapDidNotReturn
deriving DecidableEq, Repr

/-- The loop of `Blog::Print(width)`: `for (const auto& post : posts_) { std::cout <<
std::string(width, '-') << "\n"; std::cout << "Title: " << post.GetTitle() <<
"\n"; std::cout << "Author: " << post.GetAuthor() << "\n"; for (const auto&
line : strategy_->Wrap(post.GetText(), width)) { std::cout << line << "\n"; }
std::cout << std::string(width, '-') << "\n"; }`.  For a negative `width` the
count of `std::string(width, '-')`, converted to `std::size_t`, exceeds
`max_size()` and the constructor throws before anything is written for the
post.  `Wrap` is the virtual member function of the text wrap strategies;
`none` means that the call does not return normally.  The value is the lines
written and how the loop ended. -/
def Blog.printPosts {St : Type} (Wrap : St → String → Int → Option (List String))
    (strategy_ : Option St) (width : Int) : List BlogPost → List BlogLine × PrintEnd
  | [] => ([], PrintEnd.returned)
  | post :: rest =>
    if width < 0 then ([], PrintEnd.length_error)
    else
      match strategy_ with
      | none =>
        ([BlogLine.rule width, BlogLine.title post.title_, BlogLine.author post.author_],
          PrintEnd.nullStrategy)
      | some s =>
        match Wrap s post.text_ width with
        | none =>
          ([BlogLine.rule width, BlogLine.title post.title_, BlogLine.author post.author_],
            PrintEnd.wrapDidNotReturn)
        | some lines =>
          ([BlogLine.rule width, BlogLine.title post.title_, BlogLine.author post.author_]
              ++ lines.map BlogLine.text ++ [BlogLine.rule width]
              ++ (Blog.printPosts Wrap strategy_ width rest).1,
            (Blog.printPosts Wrap strategy_ width rest).2)

/-- Model of `Blog::Print(width)`: the loop over `posts_` with the current `strategy_`. -/
def Blog.Print {St : Type} (Wrap : St → String → Int → Option (List String)) (b : Blog St)
    (width : Int) : List BlogLine × PrintEnd :=
  Blog.printPosts Wrap b.strategy_ width b.posts_

/-- Model of `Blog::AddPost(post)`: `posts_.push_back(post);`. -/
def Blog.AddPost {St : Type} (b : Blog St) (post : BlogPost) : Blog St :=
  { b with posts_ := b.posts_ ++ [post] }

/-- Model of `Blog::SetStrategy(strategy)`: `strategy_ = std::move(strategy);`. -/
def Blog.SetStrategy {St : Type} (b : Blog St) (strategy : Option St) : Blog St :=
  { b with strategy_ := strategy }

/-- The class `Predictor`: `std::unique_ptr<PredictionStrategy> strategy_`. -/
structure Predictor (St : Type) where
  strategy_ : Option St
deriving DecidableEq, Repr

/-- Model of `Predictor::Predict(values) const`: `return strategy_->Predict(values);`.
`Predict` is the virtual const member function of the prediction strategies;
`F` is the type of the `float` values.  On a null `strategy_` the call is
undefined (`none`). -/
def Predictor.Predict {St F : Type} (Predict : St → List F → F) (p : Predictor St)
    (values : List F) : Option F :=
  match p.strategy_ with
  | none => none
  | some s => some (Predict s values)

/-- Model of `Predictor::SetStrategy(strategy)`: `strategy_ = std::move(strategy);`. -/
def Predictor.SetStrategy {St : Type} (_p : Predictor St) (strategy : Option St) :
    Predictor St :=
  { strategy_ := strategy }

end StrategyPattern

namespace Library

/-! ## `code/completed/library/v2a/lib/Member.h` -/

/-- The struct `Date`: three `unsigned int` fields. -/
structure Date where
  year : Nat
  month : Nat
  day : Nat
deriving DecidableEq, Repr

/-- The classes derived from `MemberType`. -/
inductive MemberType where
  | RegularMemberType
deriving DecidableEq, Repr

/-- Model of `MemberType::ToString()`. -/
def MemberType.ToString : MemberType → String
  | .RegularMemberType => "regular member"

/-- The static data of class `Member`: `static unsigned int nextId;`, one
variable for the whole process. -/
structure MemberStatics where
  nextId : Nat
deriving DecidableEq, Repr

/-- The class `Member` (non-static data members). -/
structure Member where
  id : Nat
  type : Option MemberType
  name : String
  address : String
  birthday : Date
  occupation : Option String
deriving DecidableEq, Repr

/-- Model of `Member::GetNextId()`: `return nextId;`. -/
def Member.GetNextId (g : MemberStatics) : Nat := g.nextId

/-- Model of `Member::GetId()`. -/
def Member.GetId (m : Member) : Nat := m.id

/-- The constructor `Member(std::unique_ptr<MemberType> type, std::string name,
std::string address, Date birthday, std::optional<std::string> occupation =
{})`, which takes no id: the member `id` is set by its default member
initializer `unsigned int id {nextId++};`, which reads the static `nextId`
and increments it (`unsigned int` arithmetic, modulo 2^32).  The value is the
new object and the static data after the construction. -/
def Member.new (g : MemberStatics) (type : Option MemberType) (name address : String)
    (birthday : Date) (occupation : Option String) : Member × MemberStatics :=
  ({ id := g.nextId, type := type, name := name, address := address,
     birthday := birthday, occupation := occupation },
   { nextId := (g.nextId + 1) % 2 ^ 32 })

end Library

namespace Command

/-! ## `01 GoF Command Pattern.cpp` -/

/-- The global variable `int commandCounter{0};`. -/
structure Globals where
  commandCounter : Int
deriving DecidableEq, Repr

/-- The data members of `ModifyCommand` other than the pointer `doc_` to the
document: `change_`, `counter_`, `state_`. -/
structure ModifyCommand where
  change_ : String
  counter_ : Int
  state_ : String
deriving DecidableEq, Repr

/-- The constructor `ModifyCommand(Document& doc, std::string change)`:
`change_{std::move(change)}`, and the default member initializers
`int counter_{++commandCounter};` and `std::string state_;`.  The
pre-increment writes the global `commandCounter` (below `INT_MAX`, where the
increment is defined).  The value is the new command and the globals after
the construction. -/
def ModifyCommand.new (g : Globals) (change : String) : ModifyCommand × Globals :=
  ({ change_ := change, counter_ := g.commandCounter + 1, state_ := "" },
   { commandCounter := g.commandCounter + 1 })

/-- The data members of `AppendCommand` other than the pointer `doc_`. -/
structure AppendCommand where
  change_ : String
  counter_ : Int
  state_ : String
deriving DecidableEq, Repr

/-- The constructor `AppendCommand(Document& doc, std::string change)`, with
the same default member initializer `int counter_{++commandCounter};`. -/
def AppendCommand.new (g : Globals) (change : String) : AppendCommand × Globals :=
  ({ change_ := change, counter_ := g.commandCounter + 1, state_ := "" },
   { commandCounter := g.commandCounter + 1 })

end Command

namespace Library

/-! ## `code/completed/library/v2a/lib/Utils.cpp` -/

/-- Model of `static_cast<unsigned int>(year)` for an `int` value: the value modulo
2^32. -/
def toUnsignedInt (i : Int) : Nat := (i % 2 ^ 32).toNat

/-- Model of `MakeYearMonthDay(int year, unsigned int month, unsigned int day)`:
`return Date {static_cast<unsigned int>(year), month, day};`. -/
def MakeYearMonthDay (year : Int) (month day : Nat) : Date :=
  { year := toUnsignedInt year, month := month, day := day }

end Library

namespace Command

/-- The class `Document`: its only data member is `std::string text_`. -/
structure Document where
  text_ : String
deriving DecidableEq, Repr

/-- What the document and the commands write to `std::cout`:
`documentModify t` is the line `  Document::Modify("t")`, `documentAppend t`
is `  Document::Append("t")`, `documentRestore s` is
`  Document::Restore("s")`; the other six are the lines
`ModifyCommand::Execute()`, `ModifyCommand::Undo()`,
`AppendCommand::Execute()`, `AppendCommand::Undo()`,
`SimpleCommand::Execute()` and `SimpleCommand::Undo()`. -/
inductive Output where
  | documentModify (new_text : String)
  | documentAppend (text : String)
  | documentRestore (state : String)
  | modifyCommandExecute
  | modifyCommandUndo
  | appendCommandExecute
  | appendCommandUndo
  | simpleCommandExecute
  | simpleCommandUndo
deriving DecidableEq, Repr

/-- Model of `Document::Modify(new_text)`: writes its line, then
`text_ = new_text + text_;`. -/
def Document.Modify (doc : Document) (new_text : String) : Document × List Output :=
  ({ text_ := new_text ++ doc.text_ }, [Output.documentModify new_text])

/-- Model of `Document::Append(text)`: writes its line, then `text_ += text;`. -/
def Document.Append (doc : Document) (text : String) : Document × List Output :=
  ({ text_ := doc.text_ ++ text }, [Output.documentAppend text])

/-- Model of `Document::GetState()`: `return text_;`. -/
def Document.GetState (doc : Document) : String := doc.text_

/-- Model of `Document::Restore(state)`: writes its line, then `text_ = state;`. -/
def Document.Restore (_doc : Document) (state : String) : Document × List Output :=
  ({ text_ := state }, [Output.documentRestore state])

/-- Model of `ModifyCommand::Execute()`: writes its line, `state_ = doc_->GetState();`,
`doc_->Modify("!" + change_ + "_" + std::to_string(counter_));`.  The document
`*doc_` is passed in and returned. -/
def ModifyCommand.Execute (c : ModifyCommand) (doc : Document) :
    ModifyCommand × Document × List Output :=
  let c1 : ModifyCommand := { c with state_ := doc.GetState }
  let r := doc.Modify ("!" ++ c.change_ ++ "_" ++ toString c.counter_)
  (c1, r.1, Output.modifyCommandExecute :: r.2)

/-- Model of `ModifyCommand::Undo()`: writes its line, `doc_->Restore(state_);`. -/
def ModifyCommand.Undo (c : ModifyCommand) (doc : Document) :
    ModifyCommand × Document × List Output :=
  let r := doc.Restore c.state_
  (c, r.1, Output.modifyCommandUndo :: r.2)

/-- Model of `AppendCommand::Execute()`: writes its line, `state_ = doc_->GetState();`,
`doc_->Append(change_ + "_" + std::to_string(counter_) + "!");`. -/
def AppendCommand.Execute (c : AppendCommand) (doc : Document) :
    AppendCommand × Document × List Output :=
  let c1 : AppendCommand := { c with state_ := doc.GetState }
  let r := doc.Append (c.change_ ++ "_" ++ toString c.counter_ ++ "!")
  (c1, r.1, Output.appendCommandExecute :: r.2)

/-- Model of `AppendCommand::Undo()`: writes its line, `doc_->Restore(state_);`. -/
def AppendCommand.Undo (c : AppendCommand) (doc : Document) :
    AppendCommand × Document × List Output :=
  let r := doc.Restore c.state_
  (c, r.1, Output.appendCommandUndo :: r.2)

/-- The values of `SimpleCommand::Action`, a pointer to a member function
`void (Document::*)(const std::string&)`: the three member functions of
`Document` with that signature. -/
inductive Action where
  | Modify
  | Append
  | Restore
deriving DecidableEq, Repr

/-- The call `(doc_->*action_)(argument)`. -/
def Action.call (action : Action) (doc : Document) (argument : String) :
    Document × List Output :=
  match action with
  | .Modify => doc.Modify argument
  | .Append => doc.Append argument
  | .Restore => doc.Restore argument

/-- The data members of `SimpleCommand` other than the pointer `doc_`:
`action_`, `text_`, `counter_`, `state_`. -/
structure SimpleCommand where
  action_ : Action
  text_ : String
  counter_ : Int
  state_ : String
deriving DecidableEq, Repr

/-- The constructor `SimpleCommand(Document& doc, Action action, std::string
text)`, with the default member initializer `int counter_{++commandCounter};`. -/
def SimpleCommand.new (g : Globals) (action : Action) (text : String) :
    SimpleCommand × Globals :=
  ({ action_ := action, text_ := text, counter_ := g.commandCounter + 1, state_ := "" },
   { commandCounter := g.commandCounter + 1 })

/-- Model of `SimpleCommand::Execute()`: writes its line, `state_ = doc_->GetState();`,
`(doc_->*action_)("!" + text_ + "_" + std::to_string(counter_) + "!");`. -/
def SimpleCommand.Execute (c : SimpleCommand) (doc : Document) :
    SimpleCommand × Document × List Output :=
  let c1 : SimpleCommand := { c with state_ := doc.GetState }
  let r := c.action_.call doc ("!" ++ c.text_ ++ "_" ++ toString c.counter_ ++ "!")
  (c1, r.1, Output.simpleCommandExecute :: r.2)

/-- Model of `SimpleCommand::Undo()`: writes its line, `doc_->Restore(state_);`. -/
def SimpleCommand.Undo (c : SimpleCommand) (doc : Document) :
    SimpleCommand × Document × List Output :=
  let r := doc.Restore c.state_
  (c, r.1, Output.simpleCommandUndo :: r.2)

end Command

namespace Singleton

/-! ## `06 GoF Singleton Pattern.cpp` -/

/-- The state that `SingletonNonThreadSafe::instance()` works on: the static
pointer `instance_` (null, `none`, or pointing to an object) and the number
of `SingletonNonThreadSafe` objects constructed so far.  Objects are
identified by their construction number, so two constructions never give the
same object. -/
structure Process where
  instance_ : Option Nat
  constructed : Nat
deriving DecidableEq, Repr

/-- The state at program start: `SingletonNonThreadSafe*
SingletonNonThreadSafe::instance_{};` is null and no object exists. -/
def Process.start : Process := { instance_ := none, constructed := 0 }

/-- Model of `SingletonNonThreadSafe::instance()`: `if (!instance_) { instance_ = new
SingletonNonThreadSafe(); } return *instance_;`.  The value is the state
after the call and the object the returned reference refers to. -/
def SingletonNonThreadSafe.instance (s : Process) : Process × Nat :=
  match s.instance_ with
  | none => ({ instance_ := some s.constructed, constructed := s.constructed + 1 },
             s.constructed)
  | some object => (s, object)

/-- The objects returned by `n` calls of `instance()` in a row, and the state
after them. -/
def SingletonNonThreadSafe.instances : Nat → Process → Process × List Nat
  | 0, s => (s, [])
  | n + 1, s =>
    let r := SingletonNonThreadSafe.instance s
    let rs := SingletonNonThreadSafe.instances n r.1
    (rs.1, r.2 :: rs.2)

/-- Model of `check_singleton(s1, s2)`: compares the addresses of its two arguments and
writes one of two lines. -/
def check_singleton (s1 s2 : Nat) : String :=
  if s1 = s2 then "Singleton works, both variables contain the same instance."
  else "Singleton failed, variables contain different instances."

end Singleton

namespace Liskov

/-! ## `07 SOLID Liskov Substitution Principle.cpp` -/

/-- The dynamic type of an object that can be passed as a `Rectangle&`. -/
inductive Class where
  | Rectangle
  | Square
deriving DecidableEq, Repr

/-- An object of class `Rectangle` or of its subclass `Square`: the dynamic
type and the two data members `length` and `width`; `F` is the type of the
`float` values. -/
structure Rectangle (F : Type) where
  dynamicType : Class
  length : F
  width : F
deriving DecidableEq, Repr

/-- The constructor `Rectangle(float l, float w) : length{l}, width{w}`. -/
def Rectangle.new {F : Type} (l w : F) : Rectangle F :=
  { dynamicType := .Rectangle, length := l, width := w }

/-- The constructor `Square(float l) : Rectangle{l, l}`. -/
def Square.new {F : Type} (l : F) : Rectangle F :=
  { dynamicType := .Square, length := l, width := l }

/-- Model of `Rectangle::Area()` (not overridden by `Square`): `return length * width;`. -/
def Rectangle.Area {F : Type} [Mul F] (r : Rectangle F) : F := r.length * r.width

/-- Model of `Rectangle::GetLength()` (not overridden). -/
def Rectangle.GetLength {F : Type} (r : Rectangle F) : F := r.length

/-- Model of `Rectangle::GetWidth()` (not overridden). -/
def Rectangle.GetWidth {F : Type} (r : Rectangle F) : F := r.width

/-- The virtual call `r.SetLength(l)`: `Rectangle::SetLength` does `length = l;`,
the override `Square::SetLength` does `length = l; width = l;`. -/
def Rectangle.SetLength {F : Type} (r : Rectangle F) (l : F) : Rectangle F :=
  match r.dynamicType with
  | .Rectangle => { r with length := l }
  | .Square => { r with length := l, width := l }

/-- The virtual call `r.SetWidth(w)`: `Rectangle::SetWidth` does `width = w;`,
the override `Square::SetWidth` does `length = w; width = w;`. -/
def Rectangle.SetWidth {F : Type} (r : Rectangle F) (w : F) : Rectangle F :=
  match r.dynamicType with
  | .Rectangle => { r with width := w }
  | .Square => { r with length := w, width := w }

/-- Model of `ResizeRectangle(Rectangle& r)`: `r.SetLength(4); r.SetWidth(5);`, then it
writes `GetLength()`, `GetWidth()` and `Area()`.  The value is the object
after the call and the three numbers written. -/
def ResizeRectangle {F : Type} [Mul F] [OfNat F 4] [OfNat F 5] (r : Rectangle F) :
    Rectangle F × (F × F × F) :=
  let r1 := (r.SetLength 4).SetWidth 5
  (r1, (r1.GetLength, r1.GetWidth, r1.Area))

end Liskov

namespace StrategyPattern

/-! ### Text wrapping strategies of `03 GoF Strategy Pattern.cpp`

A `std::string` is a Lean `String`, one Lean character for one `char`. -/

/-- Model of `std::string::size()`. -/
def size (s : String) : Nat := s.data.length

/-- Conversion of an `int` to `std::size_t` (64 bits), as it happens when an
`int` is compared with `text.size()` or passed as a position or count. -/
def toSizeT (i : Int) : Nat := (i % 2 ^ 64).toNat

/-- Model of `s.substr(pos, count)` for `pos <= s.size()`: the characters from `pos` on,
at most `count` of them.  (For `pos > s.size()` the call throws
`std::out_of_range`; in the functions below `pos` is 0.) -/
def substr (s : String) (pos count : Nat) : String := ⟨(s.data.drop pos).take count⟩

/-- Model of `s.substr(pos)` for `pos <= s.size()`: the characters from `pos` on.  (In
the loops below the call is only reached with `pos <= s.size()`, because the
loop condition gives `width < s.size()`.) -/
def substrFrom (s : String) (pos : Nat) : String := ⟨s.data.drop pos⟩

/-- Index of the last occurrence of `ch` in a list of characters. -/
def lastIndexOf (ch : Char) : List Char → Option Nat
  | [] => none
  | c :: rest =>
    match lastIndexOf ch rest with
    | some i => some (i + 1)
    | none => if c = ch then some 0 else none

/-- Model of `s.find_last_of(ch, pos)`: the index of the last occurrence of `ch` at or
before index `pos`, or `std::string::npos` (`none`). -/
def find_last_of (s : String) (ch : Char) (pos : Nat) : Option Nat :=
  lastIndexOf ch (s.data.take (pos + 1))

/-- Model of `TruncationStrategy::Wrap(text, width)`: `if (text.size() <= width) { return
{text}; } return {text.substr(0, width - 3) + "..."};`.  The comparison
converts `width` to `std::size_t`; `width - 3` is computed as `int` and
converted to `std::size_t` for `substr`. -/
def TruncationStrategy.Wrap (text : String) (width : Int) : List String :=
  if size text ≤ toSizeT width then [text]
  else [substr text 0 (toSizeT (width - 3)) ++ "..."]

/-- The loop of `BreakAnywhereStrategy::Wrap`: `while (remainingText.size() > width) {
lines.push_back(remainingText.substr(0, width)); remainingText =
remainingText.substr(width); }`, then `lines.push_back(remainingText); return
lines;`.  The first argument bounds the number of iterations; `none` means
that the bound was reached before the loop ended. -/
def BreakAnywhereStrategy.loop (width : Int) : Nat → String → List String →
    Option (List String)
  | 0, _, _ => none
  | fuel + 1, remainingText, lines =>
    if size remainingText > toSizeT width then
      BreakAnywhereStrategy.loop width fuel (substrFrom remainingText (toSizeT width))
        (lines ++ [substr remainingText 0 (toSizeT width)])
    else some (lines ++ [remainingText])

/-- Model of `BreakAnywhereStrategy::Wrap(text, width)`: `remainingText{text}`, `lines`
empty, then the loop.  The bound `text.size() + 1` is enough whenever every
iteration shortens `remainingText`; with `width == 0` and a non-empty text
the C++ loop never ends and the value is `none`. -/
def BreakAnywhereStrategy.Wrap (text : String) (width : Int) : Option (List String) :=
  BreakAnywhereStrategy.loop width (size text + 1) text []

/-- The loop of `BreakOnSpaceStrategy::Wrap`: `while (remainingText.size() > width) {
auto pos = remainingText.find_last_of(' ', width); if (pos ==
std::string::npos) { pos = width; } lines.push_back(remainingText.substr(0,
pos)); remainingText = remainingText.substr(pos + 1); }`, then
`lines.push_back(remainingText); return lines;`.  The first argument bounds
the number of iterations. -/
def BreakOnSpaceStrategy.loop (width : Int) : Nat → String → List String →
    Option (List String)
  | 0, _, _ => none
  | fuel + 1, remainingText, lines =>
    if size remainingText > toSizeT width then
      let pos : Nat :=
        match find_last_of remainingText ' ' (toSizeT width) with
        | some p => p
        | none => toSizeT width
      BreakOnSpaceStrategy.loop width fuel (substrFrom remainingText (pos + 1))
        (lines ++ [substr remainingText 0 pos])
    else some (lines ++ [remainingText])

/-- Model of `BreakOnSpaceStrategy::Wrap(text, width)`: `lines` empty,
`remainingText{text}`, then the loop; every iteration removes at least one
character, so `text.size() + 1` iterations are enough. -/
def BreakOnSpaceStrategy.Wrap (text : String) (width : Int) : Option (List String) :=
  BreakOnSpaceStrategy.loop width (size text + 1) text []

/-- The free function `TruncateLines(text, width)`: `if (text.size() <= width)
{ return {text}; } return {text.substr(0, width - 3) + "..."};`. -/
def TruncateLines (text : String) (width : Int) : List String :=
  if size text ≤ toSizeT width then [text]
  else [substr text 0 (toSizeT (width - 3)) ++ "..."]

/-- The lambda passed to `FunBlog::SetStrategy`: `[](const std::string& text,
int width) -> std::vector<std::string> { if (text.size() <= width) { return
{text}; } return {text.substr(0, width - 3) + "..."}; }`. -/
def truncateLambda (text : String) (width : Int) : List String :=
  if size text ≤ toSizeT width then [text]
  else [substr text 0 (toSizeT (width - 3)) ++ "..."]

end StrategyPattern

namespace StaticStrategy

/-! ## `10 The Static Strategy Pattern.cpp` -/

/-- Model of `TruncationStrategy::Wrap(text, width)` of the static strategy slide (a
class without superclass): `if (text.size() <= width) { return {text}; }
return {text.substr(0, width - 3) + "..."};`. -/
def TruncationStrategy.Wrap (text : String) (width : Int) : List String :=
  if StrategyPattern.size text ≤ StrategyPattern.toSizeT width then [text]
  else [StrategyPattern.substr text 0 (StrategyPattern.toSizeT (width - 3)) ++ "..."]

end StaticStrategy

namespace CRTP

/-! ## `11 The Curiously Recurring Template Pattern (CRTP).cpp`

The documents have no data members; a member function is given by the text
it writes to `std::cout`. -/

/-- The classes derived from the abstract class `Document`. -/
inductive Document where
  | TextDocument
  | SpreadsheetDocument
deriving DecidableEq, Repr

/-- The virtual call `DoSave()`: `TextDocument::DoSave` and
`SpreadsheetDocument::DoSave`. -/
def Document.DoSave : Document → String
  | .TextDocument => "-> Saving text document in DOCX format.\n"
  | .SpreadsheetDocument => "-> Saving spreadsheet in XLSX format.\n"

/-- Model of `Document::Save()`: `std::cout << "Saving to existing file.\n"; DoSave();
std::cout << "Document saved.\n\n";`. -/
def Document.Save (d : Document) : String :=
  "Saving to existing file.\n" ++ d.DoSave ++ "Document saved.\n\n"

/-- Model of `Document::SaveAs()`: `std::cout << "Asking user for file name.\n";
DoSave(); std::cout << "Document saved.\n\n";`. -/
def Document.SaveAs (d : Document) : String :=
  "Asking user for file name.\n" ++ d.DoSave ++ "Document saved.\n\n"

/-- The classes that instantiate the template parameter `Derived` of
`DocumentV2<Derived>` and inherit from it. -/
inductive DocumentV2 where
  | TextDocumentV2
  | SpreadsheetDocumentV2
deriving DecidableEq, Repr

/-- Model of `TextDocumentV2::DoSave()`, a non-virtual member function. -/
def TextDocumentV2.DoSave : String := "-> Saving text document in DOCX format.\n"

/-- Model of `SpreadsheetDocumentV2::DoSave()`, a non-virtual member function. -/
def SpreadsheetDocumentV2.DoSave : String := "-> Saving spreadsheet in XLSX format.\n"

/-- The call `static_cast<Derived*>(this)->DoSave()`, resolved at compile
time by the template argument. -/
def DocumentV2.DoSave : DocumentV2 → String
  | .TextDocumentV2 => TextDocumentV2.DoSave
  | .SpreadsheetDocumentV2 => SpreadsheetDocumentV2.DoSave

/-- Model of `DocumentV2<Derived>::Save()`: `std::cout << "Saving to existing file.\n";
static_cast<Derived*>(this)->DoSave(); std::cout << "Document saved.\n\n";`. -/
def DocumentV2.Save (d : DocumentV2) : String :=
  "Saving to existing file.\n" ++ d.DoSave ++ "Document saved.\n\n"

/-- Model of `DocumentV2<Derived>::SaveAs()`: `std::cout << "Asking user for file
name.\n"; static_cast<Derived*>(this)->DoSave(); std::cout << "Document
saved.\n\n";`. -/
def DocumentV2.SaveAs (d : DocumentV2) : String :=
  "Asking user for file name.\n" ++ d.DoSave ++ "Document saved.\n\n"

/-- The CRTP class of the same document kind as a virtual-dispatch class. -/
def Document.toV2 : Document → DocumentV2
  | .TextDocument => .TextDocumentV2
  | .SpreadsheetDocument => .SpreadsheetDocumentV2

end CRTP

namespace Singleton

/-! ### The game engine of `06 GoF Singleton Pattern.cpp` -/

/-- The class `GameEngine`: `uint32_t audio_device_handle`, `bool
level_loaded`, `bool characters_loaded`.  There is one object, the static
local of `GameEngine::instance()`; the functions below take and return its
state. -/
structure GameEngine where
  audio_device_handle : Nat
  level_loaded : Bool
  characters_loaded : Bool
deriving DecidableEq, Repr

/-- Lines written by the game engine: `loadingLevel` is `Loading level...`,
`loadingCharacters` is `Loading characters...`, `levelNotLoaded` is
`Level not loaded` (on `std::cerr`), `charactersNotLoaded` is
`Characters not loaded` (on `std::cerr`), `running` is
`Running the game engine`, `settingUpLevel` is `Setting up the game level`,
`settingUpCharacters` is `Setting up the game characters`. -/
inductive EngineOutput where
  | loadingLevel
  | loadingCharacters
  | levelNotLoaded
  | charactersNotLoaded
  | running
  | settingUpLevel
  | settingUpCharacters
deriving DecidableEq, Repr

/-- The constructor `GameEngine::GameEngine()`:
`audio_device_handle(++current_audio_device_handle), level_loaded(false),
characters_loaded(false)`.  The argument is the global
`uint32_t current_audio_device_handle`, the value is the new engine and the
global after the construction. -/
def GameEngine.new (current_audio_device_handle : Nat) : GameEngine × Nat :=
  ({ audio_device_handle := (current_audio_device_handle + 1) % 2 ^ 32,
     level_loaded := false, characters_loaded := false },
   (current_audio_device_handle + 1) % 2 ^ 32)

/-- Model of `GameEngine::get_audio_device_handle()`. -/
def GameEngine.get_audio_device_handle (e : GameEngine) : Nat := e.audio_device_handle

/-- Model of `GameEngine::load_level()`: writes `Loading level...`, then
`level_loaded = true;`. -/
def GameEngine.load_level (e : GameEngine) : GameEngine × List EngineOutput :=
  ({ e with level_loaded := true }, [EngineOutput.loadingLevel])

/-- Model of `GameEngine::load_characters()`: writes `Loading characters...`, then
`characters_loaded = true;`. -/
def GameEngine.load_characters (e : GameEngine) : GameEngine × List EngineOutput :=
  ({ e with characters_loaded := true }, [EngineOutput.loadingCharacters])

/-- Model of `GameEngine::run()`: `if (!level_loaded) { std::cerr << "Level not
loaded\n"; return; } if (!characters_loaded) { std::cerr << "Characters not
loaded\n"; return; } std::cout << "Running the game engine\n"; level_loaded =
characters_loaded = false;`. -/
def GameEngine.run (e : GameEngine) : GameEngine × List EngineOutput :=
  if !e.level_loaded then (e, [EngineOutput.levelNotLoaded])
  else if !e.characters_loaded then (e, [EngineOutput.charactersNotLoaded])
  else ({ e with level_loaded := false, characters_loaded := false }, [EngineOutput.running])

/-- Model of `set_up_level()`: `engine.load_level();` on the one engine, then it writes
`Setting up the game level`. -/
def set_up_level (e : GameEngine) : GameEngine × List EngineOutput :=
  ((e.load_level).1, (e.load_level).2 ++ [EngineOutput.settingUpLevel])

/-- Model of `set_up_characters()`: `engine.load_characters();` on the one engine, then
it writes `Setting up the game characters`. -/
def set_up_characters (e : GameEngine) : GameEngine × List EngineOutput :=
  ((e.load_characters).1, (e.load_characters).2 ++ [EngineOutput.settingUpCharacters])

/-- A call on the game engine. -/
inductive EngineCall where
  | load_level
  | load_characters
  | run
deriving DecidableEq, Repr

/-- Effect of one call. -/
def GameEngine.call (e : GameEngine) : EngineCall → GameEngine × List EngineOutput
  | .load_level => e.load_level
  | .load_characters => e.load_characters
  | .run => e.run

/-- Effect of a sequence of calls: the engine after them and everything
written, in order. -/
def GameEngine.calls (e : GameEngine) : List EngineCall → GameEngine × List EngineOutput
  | [] => (e, [])
  | c :: cs =>
    let r := e.call c
    let rs := r.1.calls cs
    (rs.1, r.2 ++ rs.2)

/-- The part of an output that follows the last line
`Running the game engine` (the whole output if there is no such line). -/
def sinceLastRun (log : List EngineOutput) : List EngineOutput :=
  log.foldl (fun acc o => if o = EngineOutput.running then [] else acc ++ [o]) []

end Singleton

namespace Builder

/-! ## `14 GoF Builder Pattern.cpp` -/

/-- Model of `m[key] = value` on a `std::map`, kept as the list of its entries in key
order: an entry with the key is replaced, otherwise the new entry is put at
its place in the order. -/
def mapSet {K V : Type} [LinearOrder K] : List (K × V) → K → V → List (K × V)
  | [], key, value => [(key, value)]
  | (k, v) :: rest, key, value =>
    if key < k then (key, value) :: (k, v) :: rest
    else if key = k then (key, value) :: rest
    else (k, v) :: mapSet rest key value

/-- A `std::map<std::string, std::string>`: its entries in key order. -/
abbrev StringMap := List (String × String)

/-- The class `RequestBuilder` with its default member initializers:
`url{"https://example.com"}`, `method{"GET"}`, empty `headers` and `params`,
empty `data`, `timeout{30}`. -/
structure RequestBuilder where
  url : String := "https://example.com"
  method : String := "GET"
  headers : StringMap := []
  params : StringMap := []
  data : String := ""
  timeout : Int := 30
deriving DecidableEq, Repr

/-- Model of `RequestBuilder::setUrl(url)`: `this->url = url; return *this;`. -/
def RequestBuilder.setUrl (b : RequestBuilder) (url : String) : RequestBuilder :=
  { b with url := url }

/-- Model of `RequestBuilder::setMethod(method)`: `this->method = method; return *this;`. -/
def RequestBuilder.setMethod (b : RequestBuilder) (method : String) : RequestBuilder :=
  { b with method := method }

/-- Model of `RequestBuilder::addHeader(key, value)`: `headers[key] = value; return
*this;`. -/
def RequestBuilder.addHeader (b : RequestBuilder) (key value : String) : RequestBuilder :=
  { b with headers := mapSet b.headers key value }

/-- Model of `RequestBuilder::addParam(key, value)`: `params[key] = value; return
*this;`. -/
def RequestBuilder.addParam (b : RequestBuilder) (key value : String) : RequestBuilder :=
  { b with params := mapSet b.params key value }

/-- Model of `RequestBuilder::setData(data)`: `this->data = data; return *this;`. -/
def RequestBuilder.setData (b : RequestBuilder) (data : String) : RequestBuilder :=
  { b with data := data }

/-- Model of `RequestBuilder::setTimeout(timeout)`: `this->timeout = timeout; return
*this;`. -/
def RequestBuilder.setTimeout (b : RequestBuilder) (timeout : Int) : RequestBuilder :=
  { b with timeout := timeout }

/-- A call `sendRequest(url, method, headers, params, data, timeout)` with its
six arguments. -/
structure SendRequest where
  url : String
  method : String
  headers : StringMap
  params : StringMap
  data : String
  timeout : Int
deriving DecidableEq, Repr

/-- Model of `RequestBuilder::send()`: `sendRequest(url, method, headers, params, data,
timeout);`.  The value is the call it makes. -/
def RequestBuilder.send (b : RequestBuilder) : SendRequest :=
  { url := b.url, method := b.method, headers := b.headers, params := b.params,
    data := b.data, timeout := b.timeout }

/-- A call of one of the six configuring member functions of the builder. -/
inductive BuilderCall where
  | setUrl (url : String)
  | setMethod (method : String)
  | addHeader (key value : String)
  | addParam (key value : String)
  | setData (data : String)
  | setTimeout (timeout : Int)
deriving DecidableEq, Repr

/-- Effect of a builder call. -/
def RequestBuilder.call (b : RequestBuilder) : BuilderCall → RequestBuilder
  | .setUrl url => b.setUrl url
  | .setMethod method => b.setMethod method
  | .addHeader key value => b.addHeader key value
  | .addParam key value => b.addParam key value
  | .setData data => b.setData data
  | .setTimeout timeout => b.setTimeout timeout

/-- Effect of a chain of builder calls, from left to right. -/
def RequestBuilder.calls (b : RequestBuilder) (cs : List BuilderCall) : RequestBuilder :=
  cs.foldl RequestBuilder.call b

/-- Two builder calls target different things: different fields, or different
keys of the headers, or different keys of the parameters. -/
def BuilderCall.different : BuilderCall → BuilderCall → Prop
  | .setUrl _, .setUrl _ => False
  | .setMethod _, .setMethod _ => False
  | .setData _, .setData _ => False
  | .setTimeout _, .setTimeout _ => False
  | .addHeader k1 _, .addHeader k2 _ => k1 ≠ k2
  | .addParam k1 _, .addParam k2 _ => k1 ≠ k2
  | _, _ => True

/-- The fields of the builder. -/
inductive Field where
  | url
  | method
  | headers
  | params
  | data
  | timeout
deriving DecidableEq, Repr

/-- The field a builder call writes. -/
def BuilderCall.field : BuilderCall → Field
  | .setUrl _ => .url
  | .setMethod _ => .method
  | .addHeader _ _ => .headers
  | .addParam _ _ => .params
  | .setData _ => .data
  | .setTimeout _ => .timeout

end Builder

namespace FareSystem

/-! ## `03 SOLID OCP (Part 2).cpp`: transport fare calculation

The `double` arithmetic is kept abstract: `D` is the type of the `double`
values with its addition and multiplication, and `lit q` is the `double` that
the decimal literal with the value `q` denotes. -/

/-- The enumeration `enum class TransportType { BUS, SUBWAY, TRAIN, BOAT };`;
`other` stands for a value of the underlying type that is none of the four
enumerators. -/
inductive TransportType where
  | BUS
  | SUBWAY
  | TRAIN
  | BOAT
  | other (value : Int)
deriving DecidableEq, Repr

/-- The first class `Transport`, with the data member `TransportType type_`. -/
structure SwitchTransport where
  type_ : TransportType
deriving DecidableEq, Repr

/-- Model of `Transport::CalculateFare(distance)` of the first class: `switch (type_) {
case BUS: return 2.50; case SUBWAY: return 1.50 + (distance * 0.20); case
TRAIN: return 5.00 + (distance * 0.15); case BOAT: return 10.00; default:
return 0.0; }`. -/
def SwitchTransport.CalculateFare {D : Type} [Add D] [Mul D] (lit : ℚ → D)
    (t : SwitchTransport) (distance : D) : D :=
  match t.type_ with
  | .BUS => lit (5 / 2)
  | .SUBWAY => lit (3 / 2) + (distance * lit (1 / 5))
  | .TRAIN => lit 5 + (distance * lit (3 / 20))
  | .BOAT => lit 10
  | .other _ => lit 0

/-- The classes derived from `FareCalculationStrategy`. -/
inductive FareCalculationStrategy where
  | BusFare
  | SubwayFare
  | TrainFare
  | BoatFare
deriving DecidableEq, Repr

/-- The virtual call `CalculateFare(distance)`: `BusFare` returns `2.50`,
`SubwayFare` returns `1.50 + (distance * 0.20)`, `TrainFare` returns
`5.00 + (distance * 0.15)`, `BoatFare` returns `10.00`. -/
def FareCalculationStrategy.CalculateFare {D : Type} [Add D] [Mul D] (lit : ℚ → D)
    (s : FareCalculationStrategy) (distance : D) : D :=
  match s with
  | .BusFare => lit (5 / 2)
  | .SubwayFare => lit (3 / 2) + (distance * lit (1 / 5))
  | .TrainFare => lit 5 + (distance * lit (3 / 20))
  | .BoatFare => lit 10

/-- The second class `Transport`, with the data member
`std::unique_ptr<FareCalculationStrategy> fareStrategy_` (null, `none`, or
owning a strategy). -/
structure Transport where
  fareStrategy_ : Option FareCalculationStrategy
deriving DecidableEq, Repr

/-- Model of `Transport::ComputeFare(distance)`: `return
fareStrategy_->CalculateFare(distance);`; undefined (`none`) on a null
pointer. -/
def Transport.ComputeFare {D : Type} [Add D] [Mul D] (lit : ℚ → D) (t : Transport)
    (distance : D) : Option D :=
  match t.fareStrategy_ with
  | none => none
  | some s => some (s.CalculateFare lit distance)

end FareSystem

namespace StrategyPattern

/-- The classes derived from `TextWrapStrategy` in `03 GoF Strategy Pattern.cpp`. -/
inductive TextWrapStrategy where
  | TruncationStrategy
  | BreakAnywhereStrategy
  | BreakOnSpaceStrategy
deriving DecidableEq, Repr

/-- The virtual call `strategy_->Wrap(text, width)`, dispatched on the class
of the strategy object; `none` when the call does not return. -/
def TextWrapStrategy.Wrap : TextWrapStrategy → String → Int → Option (List String)
  | .TruncationStrategy, text, width => some (StrategyPattern.TruncationStrategy.Wrap text width)
  | .BreakAnywhereStrategy, text, width => StrategyPattern.BreakAnywhereStrategy.Wrap text width
  | .BreakOnSpaceStrategy, text, width => StrategyPattern.BreakOnSpaceStrategy.Wrap text width

/-- A blog built with `TruncationStrategy` that holds one short post. -/
def shortBlog : Blog TextWrapStrategy :=
  { posts_ := [{ author_ := "John Doe", title_ := "My first post",
                 text_ := "This is my first post." }],
    strategy_ := some TextWrapStrategy.TruncationStrategy }

end StrategyPattern

/-! # Theorems -/

namespace Observer

theorem updates_notifyLoop {P : Type} (h : Heap) (payload : P) (l : List WeakPtr) :
    updates (notifyLoop h payload l) = (liveList h l).map fun a => (a, payload) := by
  induction l with
  | nil => rfl
  | cons o rest ih =>
    cases hl : lock h o with
    | none => simp [notifyLoop, liveList, hl, List.filterMap_cons] at ih ⊢; exact ih
    | some a => simp [notifyLoop, liveList, hl, List.filterMap_cons, updates] at ih ⊢; exact ih

theorem updates_Notify {P : Type} (h : Heap) (s : Subject P) (payload : P) :
    updates (s.Notify h payload) = (liveList h s.observers).map fun a => (a, payload) := by
  simp [Subject.Notify, Subject.PrintObservers, updates, updates_notifyLoop]

theorem lock_eq_some {h : Heap} {o : WeakPtr} {a : Addr} :
    lock h o = some a ↔ o = some a ∧ h.alive a = true := by
  cases o with
  | none => simp [lock]
  | some b =>
    by_cases hb : h.alive b = true
    · simp [lock, hb]; intro e; subst e; exact hb
    · simp [lock, hb]; intro e; subst e; simpa using hb

theorem count_liveList (h : Heap) (l : List WeakPtr) (a : Addr) :
    (liveList h l).count a = if h.alive a then l.count (some a) else 0 := by
  induction l with
  | nil => simp [liveList]
  | cons o rest ih =>
    simp only [liveList] at ih ⊢
    cases hl : lock h o with
    | none =>
      have hne : o ≠ some a ∨ h.alive a = false := by
        by_cases ha : h.alive a = true
        · left; intro e; have := (lock_eq_some (h := h) (o := o) (a := a)).2 ⟨e, ha⟩
          rw [hl] at this; cases this
        · right; simpa using ha
      rw [List.filterMap_cons, hl]; simp only []
      rw [ih]
      rcases hne with hne | hne
      · simp [List.count_cons, hne]
      · simp [hne]
    | some b =>
      obtain ⟨rfl, hb⟩ := lock_eq_some.1 hl
      rw [List.filterMap_cons, hl]; simp only []
      rw [List.count_cons, ih, List.count_cons]
      by_cases hab : b = a
      · subst hab; simp [hb]
      · have h1 : (b == a) = false := by simpa using hab
        have h2 : (some b == some a) = false := by simpa using hab
        simp [h1, h2]

theorem receivers_Notify {P : Type} (h : Heap) (s : Subject P) (payload : P) :
    (updates (s.Notify h payload)).map Prod.fst = liveList h s.observers := by
  rw [updates_Notify, List.map_map]
  exact (List.map_congr_left (fun _ _ => rfl)).trans (List.map_id _)

theorem alive_of_alive_reset {h : Heap} {o a : Addr}
    (ha : (h.reset o).alive a = true) : h.alive a = true := by
  unfold Heap.reset at ha
  by_cases hao : a = o
  · simp [hao] at ha
  · simpa [hao] using ha

theorem alive_of_alive_run {P : Type} (ops : List (Op P)) :
    ∀ (w : Prog P) (a : Addr), (w.run ops).1.heap.alive a = true → w.heap.alive a = true := by
  induction ops with
  | nil => intro w a ha; exact ha
  | cons op rest ih =>
    intro w a ha
    have h1 := ih (w.step op).1 a ha
    cases op with
    | attach o => exact h1
    | detach o => exact h1
    | reset o => exact alive_of_alive_reset h1
    | notify payload => exact h1

theorem liveList_append (h : Heap) (l1 l2 : List WeakPtr) :
    liveList h (l1 ++ l2) = liveList h l1 ++ liveList h l2 := by
  simp [liveList]

/-- Entries removed by `Detach(o)` under heap `h`, seen from a later heap `k`
(every object alive in `k` is alive in `h`): exactly the live entries for `o`
are gone. -/
theorem liveList_detach_filter (h k : Heap) (o : Addr)
    (hk : ∀ a, k.alive a = true → h.alive a = true) (l : List WeakPtr) :
    liveList k (l.filter fun e => !((lock h e).isSome && (lock h e == some o)))
      = (liveList k l).filter fun a => !(a == o) := by
  induction l with
  | nil => rfl
  | cons e rest ih =>
    simp only [liveList] at ih ⊢
    cases e with
    | none => simpa [lock, List.filter_cons, List.filterMap_cons] using ih
    | some x =>
      by_cases hx : k.alive x = true
      · have hx2 := hk x hx
        by_cases hxo : x = o
        · subst hxo
          simpa [lock, hx, hx2, List.filter_cons, List.filterMap_cons] using ih
        · simpa [lock, hx, hx2, hxo, List.filter_cons, List.filterMap_cons] using ih
      · have hx1 : k.alive x = false := by simpa using hx
        rw [List.filter_cons]
        split <;> simpa [lock, hx1, List.filterMap_cons] using ih

/-- The live entries of the observer list after a sequence of calls: the
entries of the list before the calls that are still alive and were not
detached, followed by the attachments made by the calls. -/
theorem liveList_run {P : Type} (ops : List (Op P)) :
    ∀ (w : Prog P),
      liveList (w.run ops).1.heap (w.run ops).1.subject.observers
        = ((liveList (w.run ops).1.heap w.subject.observers).filter
            fun a => !(detachedLater a ops))
          ++ attachOrder (w.run ops).1.heap.alive ops := by
  induction ops with
  | nil => intro w; simp [Prog.run, detachedLater, attachOrder]
  | cons op rest ih =>
    intro w
    have hmono := alive_of_alive_run rest (w.step op).1
    have h1 := ih (w.step op).1
    cases op with
    | attach o =>
      have hrun : (w.run (Op.attach o :: rest)).1 = ((w.step (Op.attach o)).1.run rest).1 := rfl
      rw [hrun, h1]
      have hm : ((w.step (Op.attach o)).1.run rest).1.heap.alive o = true
          → w.heap.alive o = true := hmono o
      generalize ((w.step (Op.attach o)).1.run rest).1.heap = k at hm ⊢
      simp only [Prog.step, Subject.Attach, liveList_append, List.filter_append,
        List.append_assoc]
      congr 1
      cases hk : k.alive o <;> cases hw : w.heap.alive o <;>
        cases hd : detachedLater o rest <;>
        simp_all [attachOrder, liveList, weak_from_this, lock]
    | detach o =>
      have hrun : (w.run (Op.detach o :: rest)).1 = ((w.step (Op.detach o)).1.run rest).1 := rfl
      rw [hrun, h1]
      simp only [Prog.step, Subject.Detach] at hmono ⊢
      congr 1
      rw [liveList_detach_filter w.heap _ o hmono, List.filter_filter]
      apply List.filter_congr; intro a _
      have hsym : (o == a) = (a == o) := BEq.comm
      simp only [detachedLater, List.any_cons, Bool.not_or, hsym]
      exact Bool.and_comm _ _
    | reset o =>
      have hrun : (w.run (Op.reset o :: rest)).1 = ((w.step (Op.reset o)).1.run rest).1 := rfl
      rw [hrun, h1]
      simp only [Prog.step, attachOrder]
      congr 1
    | notify payload =>
      have hrun : (w.run (Op.notify payload :: rest)).1
          = ((w.step (Op.notify payload)).1.run rest).1 := rfl
      rw [hrun, h1]
      simp only [Prog.step, attachOrder]
      congr 1

theorem mem_liveList {h : Heap} {l : List WeakPtr} {a : Addr} :
    a ∈ liveList h l ↔ some a ∈ l ∧ h.alive a = true := by
  simp only [liveList, List.mem_filterMap, lock_eq_some]
  constructor
  · rintro ⟨e, he, rfl, ha⟩; exact ⟨he, ha⟩
  · rintro ⟨he, ha⟩; exact ⟨some a, he, rfl, ha⟩

theorem updates_append {P : Type} (es fs : List (Event P)) :
    updates (es ++ fs) = updates es ++ updates fs := by
  induction es with
  | nil => rfl
  | cons e rest ih => cases e <;> simp [updates, ih]

theorem mem_updates {P : Type} {es : List (Event P)} {a : Addr} {payload : P} :
    (a, payload) ∈ updates es ↔ Event.update a payload ∈ es := by
  induction es with
  | nil => simp [updates]
  | cons e rest ih => cases e <;> simp [updates, ih]

/-- While an observer has no live entry in the list and is not attached
again, no call sequence makes the subject call its update operation. -/
theorem no_update_while_unattached {P : Type} (o : Addr) (ops : List (Op P)) :
    ∀ (w : Prog P), o ∉ liveList w.heap w.subject.observers → Op.attach o ∉ ops →
      ∀ x ∈ updates (w.run ops).2, x.1 ≠ o := by
  induction ops with
  | nil => intro w _ _ x hx; simp [Prog.run, updates] at hx
  | cons op rest ih =>
    intro w hw hno x hx
    have hrest : Op.attach o ∉ rest := fun hmem => hno (List.mem_cons_of_mem _ hmem)
    have hop : op ≠ Op.attach o := fun e => hno (e ▸ List.mem_cons_self _ _)
    have hsplit : updates (w.run (op :: rest)).2
        = updates (w.step op).2 ++ updates ((w.step op).1.run rest).2 := by
      simp [Prog.run, updates_append]
    rw [hsplit, List.mem_append] at hx
    have hinv : o ∉ liveList (w.step op).1.heap (w.step op).1.subject.observers
        ∧ ∀ y ∈ updates (w.step op).2, y.1 ≠ o := by
      cases op with
      | attach b =>
        have hb : b ≠ o := fun e => hop (by rw [e])
        constructor
        · simp only [Prog.step, Subject.Attach, liveList_append, List.mem_append, not_or]
          refine ⟨hw, ?_⟩
          rw [mem_liveList]
          rintro ⟨hmem, _⟩
          unfold weak_from_this at hmem
          split at hmem
          · simp at hmem; exact hb hmem.symm
          · simp at hmem
        · intro y hy; simp [Prog.step, Subject.Attach, Subject.PrintObservers, updates] at hy
      | detach b =>
        constructor
        · simp only [Prog.step, Subject.Detach]
          rw [liveList_detach_filter w.heap w.heap b (fun _ ha => ha)]
          intro hmem
          exact hw (List.mem_filter.1 hmem).1
        · intro y hy; simp [Prog.step, Subject.Detach, Subject.PrintObservers, updates] at hy
      | reset b =>
        constructor
        · simp only [Prog.step]
          rw [mem_liveList]
          rintro ⟨hmem, ha⟩
          exact hw (mem_liveList.2 ⟨hmem, alive_of_alive_reset ha⟩)
        · intro y hy; simp [Prog.step, updates] at hy
      | notify payload =>
        constructor
        · exact hw
        · intro y hy
          simp only [Prog.step, updates_Notify, List.mem_map] at hy
          obtain ⟨a, ha, rfl⟩ := hy
          intro e
          exact hw (e ▸ ha)
    rcases hx with hx | hx
    · exact hinv.2 x hx
    · exact ih (w.step op).1 hinv.1 hrest x hx

example : (pushDemoBefore4.2.ProduceItem pushDemoBefore4.1 4).2
    = [Event.printed "before notifying" [none, some 1], Event.update 1 4] := by decide

/-- C1 (amended): a notification (`PushSubject::Notify`, `PullSubject::Notify`
as `Subject.Notify`, and `StockMarket::NotifyObservers`) is a total function
with no error result; for every observer list, whatever entries have expired,
the update calls it makes are exactly the live entries of the list in list
order, each with the payload of the notification.  Hence a destroyed observer
receives no call and a live observer receives one call per entry it has in the
list: exactly one if it was attached once, two if it was attached twice. -/
theorem notify_calls_update_once_per_live_entry {P S : Type} (h : Heap) (s : Subject P)
    (m : StockMarket) (payload : P) (stocks : S) (a : Addr) :
    (updates (s.Notify h payload) = (liveList h s.observers).map (fun b => (b, payload))
      ∧ ((updates (s.Notify h payload)).map Prod.fst).count a
          = if h.alive a then s.observers.count (some a) else 0)
    ∧ (updates (m.NotifyObservers h stocks) = (liveList h m.observers).map (fun b => (b, stocks))
      ∧ ((updates (m.NotifyObservers h stocks)).map Prod.fst).count a
          = if h.alive a then m.observers.count (some a) else 0) := by
  refine ⟨⟨updates_Notify h s payload, ?_⟩, ⟨updates_notifyLoop h stocks m.observers, ?_⟩⟩
  · rw [receivers_Notify, count_liveList]
  · have hrec : (updates (m.NotifyObservers h stocks)).map Prod.fst = liveList h m.observers := by
      unfold StockMarket.NotifyObservers
      rw [updates_notifyLoop, List.map_map]
      exact (List.map_congr_left (fun _ _ => rfl)).trans (List.map_id _)
    rw [hrec, count_liveList]

/-- C1 (counterexample): in the state reached by `Attach(*o1)`, `Attach(*o2)`,
`Attach(*o2)`, `o1.reset()` the list holds the destroyed observer `o1` (never
detached) and the live observer `o2`; `Notify(7)` calls `Update(7)` on `o2`
twice, not exactly once. -/
theorem notify_updates_doubly_attached_observer_twice :
    doubleAttachProg.subject.observers = [some 1, some 2, some 2]
    ∧ doubleAttachProg.heap.alive 1 = false
    ∧ doubleAttachProg.heap.alive 2 = true
    ∧ updates (doubleAttachProg.subject.Notify doubleAttachProg.heap 7) = [(2, 7), (2, 7)]
    ∧ ((updates (doubleAttachProg.subject.Notify doubleAttachProg.heap 7)).map Prod.fst).count 2
        ≠ 1 := by
  decide

/-- C2: scenario C.  After `Attach(*o1)`, `Attach(*o2)` on an empty subject
(two distinct live observers) and `Detach(*o1)`, the next notification calls
the update operation of `o2` once and does not call `o1`; so does the
notification of `ProduceItem(3)` in the push demo (attach `o1` and `o2`,
`ProduceItem(1)`, `ProduceItem(2)`, `Detach(*o1)`).  In general, from every
program state, after `Detach(o)` no call sequence without an `Attach(o)` makes
the subject call the update operation of `o`, whatever else is attached,
detached, destroyed or notified in between. -/
theorem no_update_after_detach {P : Type} (h : Heap) (o1 o2 : Addr) (item : P)
    (w : Prog P) (o : Addr) (ops : List (Op P))
    (hlive1 : h.alive o1 = true) (hlive2 : h.alive o2 = true) (hne : o1 ≠ o2)
    (hno : Op.attach o ∉ ops) :
    updates ((Prog.run ⟨h, {}⟩ [Op.attach o1, Op.attach o2, Op.detach o1]).1.subject.Notify
        h item) = [(o2, item)]
    ∧ updates (pushDemoBefore3.ProduceItem demoHeap 3).2 = [(2, 3)]
    ∧ ∀ payload, Event.update o payload ∉ (w.run (Op.detach o :: ops)).2 := by
  refine ⟨?_, by decide, ?_⟩
  · have hne2 : ¬ o2 = o1 := fun e => hne e.symm
    simp [Prog.run, Prog.step, Subject.Attach, Subject.Detach, Subject.Notify,
      Subject.PrintObservers, weak_from_this, lock, notifyLoop, updates, hlive1, hlive2, hne2]
  intro payload hmem
  have hmem2 : (o, payload) ∈ updates (w.run (Op.detach o :: ops)).2 := mem_updates.2 hmem
  have hsplit : updates (w.run (Op.detach o :: ops)).2
      = updates (w.step (Op.detach o)).2 ++ updates ((w.step (Op.detach o)).1.run ops).2 := by
    simp [Prog.run, updates_append]
  rw [hsplit, List.mem_append] at hmem2
  rcases hmem2 with h1 | h1
  · simp [Prog.step, Subject.Detach, Subject.PrintObservers, updates] at h1
  · have hinv : o ∉ liveList (w.step (Op.detach o)).1.heap
        (w.step (Op.detach o)).1.subject.observers := by
      simp only [Prog.step, Subject.Detach]
      rw [liveList_detach_filter w.heap w.heap o (fun _ ha => ha)]
      intro hm
      have := (List.mem_filter.1 hm).2
      simp at this
    exact no_update_while_unattached o ops _ hinv hno (o, payload) h1 rfl

/-- C2 (witness): the observers `o1`, `o2` of the demo heap; and from the
subject holding both, after `Detach(*o1)` the calls `Notify(3)`,
`Attach(*o2)`, `Notify(4)` never update `o1`. -/
theorem no_update_after_detach_witness :
    demoHeap.alive 1 = true ∧ demoHeap.alive 2 = true ∧ (1 : Addr) ≠ 2
    ∧ Op.attach 1 ∉ [Op.notify (3 : Int), Op.attach 2, Op.notify 4]
    ∧ (updates ((Prog.run ⟨demoHeap, {}⟩
          [Op.attach 1, Op.attach 2, Op.detach 1]).1.subject.Notify demoHeap (3 : Int))
        = [(2, 3)]
      ∧ updates (pushDemoBefore3.ProduceItem demoHeap 3).2 = [(2, 3)]
      ∧ ∀ payload, Event.update 1 payload ∉
          (Prog.run (⟨demoHeap, ⟨[some 1, some 2]⟩⟩ : Prog Int)
            (Op.detach 1 :: [Op.notify (3 : Int), Op.attach 2, Op.notify 4])).2) :=
  ⟨by decide, by decide, by decide, by decide,
    no_update_after_detach demoHeap 1 2 3 _ 1 _ (by decide) (by decide) (by decide)
      (by decide)⟩

/-- C3: for every heap and every sequence of `Attach`, `Detach`, `reset` and
`Notify` calls on an initially empty subject (`PushSubject` and `PullSubject`
alike), a following `Notify` calls the update operation of exactly the
attachments of live observers that were not detached afterwards, in the order
of the `Attach` calls. -/
theorem notify_follows_attach_order {P : Type} (h : Heap) (ops : List (Op P)) (payload : P) :
    updates ((Prog.run ⟨h, {}⟩ ops).1.subject.Notify (Prog.run ⟨h, {}⟩ ops).1.heap payload)
      = (attachOrder (Prog.run ⟨h, ({} : Subject P)⟩ ops).1.heap.alive ops).map
          fun a => (a, payload) := by
  rw [updates_Notify, liveList_run ops ⟨h, {}⟩]
  simp [liveList]

end Observer

namespace Adventure

example : Pawn.Perform (GetConnectedLocation scenarioConnections) ⟨"Start"⟩ .Move "north"
    = (⟨"Hall"⟩, .ok ()) := by decide

example : Pawn.Perform (GetConnectedLocation scenarioConnections) ⟨"Hall"⟩ .Move "south"
    = (⟨"Start"⟩, .ok ()) := by decide

/-- C4 (counterexample): scenario B.  The pawn stands on `Hall`, `east` is not
a connection of `Hall`; `Perform(Action::Move, "east")` leaves the pawn on
`Hall` but fails with the `NoSuchDirection` of the lookup, not with
`InvalidActionError`. -/
theorem move_east_from_hall_is_not_InvalidActionError :
    (scenarioConnections "Hall").lookup "east" = none
    ∧ Pawn.Perform (GetConnectedLocation scenarioConnections) ⟨"Hall"⟩ .Move "east"
        = (⟨"Hall"⟩, .error .NoSuchDirection)
    ∧ Pawn.Perform (GetConnectedLocation scenarioConnections) ⟨"Hall"⟩ .Move "east"
        ≠ (⟨"Hall"⟩, .error .InvalidActionError) := by
  decide

/-- C4 (amended): for every pawn and every direction, if the lookup of the
direction on the pawn's current location fails with an error `e`, then
`Perform(Action::Move, direction)` leaves the pawn's location unchanged and
fails with that same error `e` (it is passed on, not translated); with the
lookup of the spec, for a direction that is not a connection of the current
location, the error is `NoSuchDirection`. -/
theorem move_failure_keeps_location_and_passes_error_on {L E : Type}
    (lookup : L → String → Except E L) (connections : L → List (String × L))
    (pawn : Pawn L) (direction : String) (e : E)
    (hfail : lookup pawn.location direction = .error e)
    (hnot : (connections pawn.location).lookup direction = none) :
    Pawn.Perform lookup pawn .Move direction = (pawn, .error e)
    ∧ Pawn.Perform (GetConnectedLocation connections) pawn .Move direction
        = (pawn, .error .NoSuchDirection) := by
  constructor
  · simp [Pawn.Perform, hfail]
  · simp [Pawn.Perform, GetConnectedLocation, hnot]

/-- C4 (witness): scenario B, the pawn on `Hall` and the direction `east`. -/
theorem move_failure_keeps_location_and_passes_error_on_witness :
    GetConnectedLocation scenarioConnections "Hall" "east" = .error .NoSuchDirection
    ∧ (scenarioConnections "Hall").lookup "east" = none
    ∧ (Pawn.Perform (GetConnectedLocation scenarioConnections) ⟨"Hall"⟩ .Move "east"
          = (⟨"Hall"⟩, .error AdventureError.NoSuchDirection)
      ∧ Pawn.Perform (GetConnectedLocation scenarioConnections) ⟨"Hall"⟩ .Move "east"
          = (⟨"Hall"⟩, .error .NoSuchDirection)) :=
  ⟨by decide, by decide,
    move_failure_keeps_location_and_passes_error_on (GetConnectedLocation scenarioConnections)
      scenarioConnections ⟨"Hall"⟩ "east" .NoSuchDirection (by decide) (by decide)⟩

/-- C5: for every pawn, every direction and every behaviour of the location
lookup (even one that always throws), `Perform(Action::SkipTurn, direction)`
returns normally and leaves the pawn, hence its location, unchanged. -/
theorem skip_turn_succeeds_and_keeps_location {L E : Type}
    (lookup : L → String → Except E L) (pawn : Pawn L) (direction : String) :
    Pawn.Perform lookup pawn .SkipTurn direction = (pawn, .ok ())
    ∧ (Pawn.Perform lookup pawn .SkipTurn direction).1.location = pawn.location := by
  exact ⟨rfl, rfl⟩

theorem mem_keys_emplace {Loc : Type} (m : List (String × Loc)) (key : String) (value : Loc)
    (n : String) :
    n ∈ (emplace m key value).map Prod.fst ↔ n ∈ m.map Prod.fst ∨ n = key := by
  unfold emplace
  split
  · rename_i hany
    constructor
    · intro h; exact Or.inl h
    · rintro (h | h)
      · exact h
      · subst h
        simp only [List.any_eq_true] at hany
        obtain ⟨kv, hkv, hk⟩ := hany
        have : kv.1 = n := by simpa using hk
        exact List.mem_map.2 ⟨kv, hkv, this⟩
  · simp

theorem mem_keys_foldl_emplace {Loc : Type} (Location : LocationData → Loc)
    (locationData : List LocationData) :
    ∀ (m : List (String × Loc)) (n : String),
      n ∈ (locationData.foldl
            (fun m location => emplace m location.name (Location location)) m).map Prod.fst
        ↔ n ∈ m.map Prod.fst ∨ n ∈ locationData.map (fun d => d.name) := by
  induction locationData with
  | nil => intro m n; simp
  | cons d rest ih =>
    intro m n
    rw [List.foldl_cons, ih, mem_keys_emplace]
    simp only [List.map_cons, List.mem_cons]
    tauto

/-- C6 (counterexample): the records of scenario A (`Start`, `Hall`) with the
initial location name `Cellar`, which is not the name of a record: the
constructor completes, and `GetInitialLocationName()` is not a key of
`GetLocations()`. -/
theorem world_with_unknown_initial_location_is_constructed :
    "Cellar" ∉ scenarioData.map (fun d => d.name)
    ∧ World.new id scenarioData "Cellar"
        = .ok { locations := [("Start", scenarioData.get ⟨0, by decide⟩),
                              ("Hall", scenarioData.get ⟨1, by decide⟩)]
                initialLocationName := "Cellar" }
    ∧ World.new id scenarioData "Cellar" ≠ .error .UnknownLocationError
    ∧ ∀ w, World.new id scenarioData "Cellar" = .ok w →
        w.GetInitialLocationName ∉ w.GetLocations.map Prod.fst := by
  refine ⟨by decide, by decide, by decide, ?_⟩
  intro w hw
  have hw2 : w = { locations := [("Start", scenarioData.get ⟨0, by decide⟩),
                              ("Hall", scenarioData.get ⟨1, by decide⟩)]
                   initialLocationName := "Cellar" } := by
    have h2 : World.new id scenarioData "Cellar"
        = .ok { locations := [("Start", scenarioData.get ⟨0, by decide⟩),
                              ("Hall", scenarioData.get ⟨1, by decide⟩)]
                initialLocationName := "Cellar" } := by decide
    rw [h2] at hw
    exact (Except.ok.inj hw).symm
  subst hw2
  decide

/-- C6 (amended): for every list of location records and every
`initialLocationName`, constructing the `World` completes without an error;
the keys of `GetLocations()` are exactly the names of the records and
`GetInitialLocationName()` is the name that was passed, so it is a key of
`GetLocations()` exactly when it is the name of one of the records. -/
theorem world_construction_stores_initial_name_unchecked {Loc : Type}
    (Location : LocationData → Loc) (locationData : List LocationData)
    (initialLocationName : String) :
    ∃ w, World.new Location locationData initialLocationName = .ok w
      ∧ w.GetInitialLocationName = initialLocationName
      ∧ (∀ n, n ∈ w.GetLocations.map Prod.fst ↔ n ∈ locationData.map (fun d => d.name))
      ∧ (w.GetInitialLocationName ∈ w.GetLocations.map Prod.fst
          ↔ initialLocationName ∈ locationData.map (fun d => d.name)) := by
  refine ⟨_, rfl, rfl, ?_, ?_⟩
  · intro n
    simp only [World.GetLocations]
    rw [mem_keys_foldl_emplace]
    simp
  · simp only [World.GetLocations, World.GetInitialLocationName]
    rw [mem_keys_foldl_emplace]
    simp

/-- C7: for every player and every way the possible actions are computed,
`Player::GetPossibleActions` (version 5c) returns the computed list and makes
exactly one call of `NotePossibleActions`, whose argument is the list it
returns. -/
theorem possible_actions_are_noted_once_with_returned_list {Pl A : Type}
    (fill : Pl → List A) (player : Pl) :
    (Player.GetPossibleActions fill player).1 = fill player
    ∧ (Player.GetPossibleActions fill player).2
        = [PlayerCall.NotePossibleActions (Player.GetPossibleActions fill player).1] := by
  exact ⟨rfl, rfl⟩

theorem turnLoop_stops_at_throw {Pl : Type} (TakeTurn : Pl → Except Exception Pl) (e : Exception) :
    ∀ (k n i : Nat) (player q : Pl), k < n → afterTurns TakeTurn k player = some q →
      TakeTurn q = .error e →
      (turnLoop TakeTurn n i player).2 = .error e
      ∧ turnsStarted (turnLoop TakeTurn n i player).1 = List.range' (i + 1) (k + 1) := by
  intro k
  induction k with
  | zero =>
    intro n i player q hn hq he
    obtain ⟨m, rfl⟩ : ∃ m, n = m + 1 := ⟨n - 1, by omega⟩
    simp only [afterTurns, Option.some.injEq] at hq
    subst hq
    simp [turnLoop, he, turnsStarted]
  | succ k ih =>
    intro n i player q hn hq he
    obtain ⟨m, rfl⟩ : ∃ m, n = m + 1 := ⟨n - 1, by omega⟩
    cases hstep : TakeTurn player with
    | error e1 => simp [afterTurns, hstep] at hq
    | ok player1 =>
      simp only [afterTurns, hstep] at hq
      obtain ⟨h1, h2⟩ := ih m (i + 1) player1 q (by omega) hq he
      simp only [turnLoop, hstep, turnsStarted, h1, h2, true_and]
      rw [List.range'_succ (i + 1) (k + 1)]

theorem turnsStarted_append_report {Pl : Type} (out : List (Output Pl)) (e : Exception) :
    turnsStarted (out ++ [report e]) = turnsStarted out := by
  induction out with
  | nil => cases e <;> rfl
  | cons o rest ih => cases o <;> simp [turnsStarted, ih]

/-- C8 (counterexample): a `TakeTurn` that throws in the third turn only.
The exception is caught and reported and `main` returns 0, but the output
shows the turns 1, 2 and 3 and then the error: the turns 4 to 10 are not run. -/
theorem main_loop_ends_at_first_exception :
    main5c failsInThirdTurn 0
        = ([Output.turn 1 0, Output.turn 2 1, Output.turn 3 2, Output.error "boom"], 0)
    ∧ turnsStarted (main5c failsInThirdTurn 0).1 ≠ List.range' 1 10 := by
  decide

/-- C8 (amended): in the main loop of version 5c, if `player.TakeTurn()`
throws a `QuitGameException` or a `std::exception` in turn `k + 1` (the turns
before it having returned normally), the exception is caught and reported as
the last line of the output and `main` returns 0, so it is not propagated out
of `main`; the turns started are exactly the turns 1 to `k + 1`: the loop is
left and the remaining turns are not run. -/
theorem main_catches_exception_and_leaves_loop {Pl : Type}
    (TakeTurn : Pl → Except Exception Pl) (player q : Pl) (k : Nat) (e : Exception)
    (hk : k < 10) (hq : afterTurns TakeTurn k player = some q)
    (he : TakeTurn q = .error e) :
    (main5c TakeTurn player).2 = 0
    ∧ (main5c TakeTurn player).1.getLast? = some (report e)
    ∧ turnsStarted (main5c TakeTurn player).1 = List.range' 1 (k + 1) := by
  obtain ⟨h1, h2⟩ := turnLoop_stops_at_throw TakeTurn e k 10 0 player q hk hq he
  have hmain : main5c TakeTurn player
      = ((turnLoop TakeTurn 10 0 player).1 ++ [report e], 0) := by
    unfold main5c
    generalize turnLoop TakeTurn 10 0 player = r at h1 ⊢
    obtain ⟨out, res⟩ := r
    simp only at h1
    subst h1
    cases e <;> rfl
  rw [hmain]
  refine ⟨rfl, by simp, ?_⟩
  rw [turnsStarted_append_report, h2]

/-- C8 (witness): the player that throws in its third turn (`k = 2`). -/
theorem main_catches_exception_and_leaves_loop_witness :
    2 < 10 ∧ afterTurns failsInThirdTurn 2 0 = some 2
    ∧ failsInThirdTurn 2 = .error (.std_exception "boom")
    ∧ ((main5c failsInThirdTurn 0).2 = 0
      ∧ (main5c failsInThirdTurn 0).1.getLast? = some (report (.std_exception "boom"))
      ∧ turnsStarted (main5c failsInThirdTurn 0).1 = List.range' 1 (2 + 1)) :=
  ⟨by decide, by decide, by decide,
    main_catches_exception_and_leaves_loop failsInThirdTurn 0 2 2 (.std_exception "boom")
      (by decide) (by decide) (by decide)⟩

end Adventure

namespace StrategyPattern

theorem callContextInterface_of_some {St F : Type} (AlgorithmInterface : St → F × St) :
    ∀ (n : Nat) (s : St),
      Context.callContextInterface AlgorithmInterface n ({ strategy_ := some s } : Context St)
        = some (callAlgorithmInterface AlgorithmInterface n s) := by
  intro n
  induction n with
  | zero => intro s; rfl
  | succ n ih =>
    intro s
    simp [Context.callContextInterface, Context.ContextInterface, callAlgorithmInterface, ih]

theorem printPosts_of_returning_wrap {W : Type}
    (Wrap : W → String → Int → Option (List String)) (w : W) (width : Int)
    (hwidth : 0 ≤ width) :
    ∀ posts : List BlogPost, (∀ post ∈ posts, (Wrap w post.text_ width).isSome = true) →
      Blog.printPosts Wrap (some w) width posts
        = (posts.flatMap fun post =>
            [BlogLine.rule width, BlogLine.title post.title_, BlogLine.author post.author_]
              ++ ((Wrap w post.text_ width).getD []).map BlogLine.text
              ++ [BlogLine.rule width],
           PrintEnd.returned) := by
  intro posts
  induction posts with
  | nil => intro _; rfl
  | cons post rest ih =>
    intro h
    have hneg : ¬ width < 0 := not_lt.mpr hwidth
    have hpost := h post (List.mem_cons_self _ _)
    have hrest := ih (fun x hx => h x (List.mem_cons_of_mem _ hx))
    cases hw : Wrap w post.text_ width with
    | none => rw [hw] at hpost; cases hpost
    | some lines =>
      simp only [Blog.printPosts, if_neg hneg, hw, hrest, List.flatMap_cons, Option.getD_some,
        List.append_assoc]

/-- For a negative width and a blog with a post, `Print` ends with
`std::length_error` before it writes anything or calls `Wrap`, whatever the
strategy is. -/
theorem print_with_negative_width_throws {W : Type}
    (Wrap : W → String → Int → Option (List String)) (b : Blog W) (width : Int)
    (hwidth : width < 0) (hposts : b.posts_ ≠ []) :
    b.Print Wrap width = ([], PrintEnd.length_error) := by
  unfold Blog.Print
  cases hp : b.posts_ with
  | nil => exact absurd hp hposts
  | cons post rest => simp [Blog.printPosts, hwidth]

/-- C9: for every `Context`, whatever strategy it held before, after
`SetStrategy(s)` the results of any number of `ContextInterface()` calls are
the results of the same number of `AlgorithmInterface()` calls on `s`; for
every `Blog`, after `SetStrategy(s)` a `Print(width)` behaves, for every
width, as on a blog with the same posts that was built with `s`, and for a
width that is not negative and posts on which `s` returns from `Wrap` it
returns having written, for each post, the rule, the title, the author, the
lines `s` wraps and the rule; for every `Predictor`, after `SetStrategy(s)`
`Predict(values)` returns what `s` predicts.  In the demo the context built
with `ConcreteStrategyA` returns 1.5 and after
`SetStrategy(ConcreteStrategyB)` returns 2.0. -/
theorem set_strategy_swaps_the_algorithm {St F W Q G : Type}
    (AlgorithmInterface : St → F × St) (c : Context St) (s : St) (n : Nat)
    (Wrap : W → String → Int → Option (List String)) (b : Blog W) (w : W) (width : Int)
    (Predict : Q → List G → G) (p : Predictor Q) (q : Q) (values : List G) :
    (c.SetStrategy (some s)).callContextInterface AlgorithmInterface n
        = some (callAlgorithmInterface AlgorithmInterface n s)
    ∧ ((b.SetStrategy (some w)).Print Wrap width
          = Blog.Print Wrap { posts_ := b.posts_, strategy_ := some w } width
      ∧ (0 ≤ width → (∀ post ∈ b.posts_, (Wrap w post.text_ width).isSome = true) →
          (b.SetStrategy (some w)).Print Wrap width
            = (b.posts_.flatMap fun post =>
                [BlogLine.rule width, BlogLine.title post.title_, BlogLine.author post.author_]
                  ++ ((Wrap w post.text_ width).getD []).map BlogLine.text
                  ++ [BlogLine.rule width],
               PrintEnd.returned)))
    ∧ (p.SetStrategy (some q)).Predict Predict values = some (Predict q values)
    ∧ ((({ strategy_ := some Strategy.ConcreteStrategyA } : Context Strategy).ContextInterface
          Strategy.AlgorithmInterface).map Prod.fst = some (3 / 2)
      ∧ (((({ strategy_ := some Strategy.ConcreteStrategyA } : Context Strategy).SetStrategy
          (some Strategy.ConcreteStrategyB)).ContextInterface
            Strategy.AlgorithmInterface).map Prod.fst = some 2)) := by
  refine ⟨callContextInterface_of_some AlgorithmInterface n s, ⟨rfl, ?_⟩, rfl, rfl, rfl⟩
  intro hwidth hwrap
  exact printPosts_of_returning_wrap Wrap w width hwidth b.posts_ hwrap

/-- C9 (witness): the blog with one short post, built with
`TruncationStrategy`; after `SetStrategy` with a `BreakAnywhereStrategy`,
`Print(10)` writes the post broken into lines of 10 characters. -/
theorem set_strategy_swaps_the_algorithm_witness :
    (0 : Int) ≤ 10
    ∧ (∀ post ∈ shortBlog.posts_,
        (TextWrapStrategy.Wrap TextWrapStrategy.BreakAnywhereStrategy post.text_ 10).isSome
          = true)
    ∧ (shortBlog.SetStrategy (some TextWrapStrategy.BreakAnywhereStrategy)).Print
          TextWrapStrategy.Wrap 10
        = (shortBlog.posts_.flatMap fun post =>
            [BlogLine.rule 10, BlogLine.title post.title_, BlogLine.author post.author_]
              ++ ((TextWrapStrategy.Wrap TextWrapStrategy.BreakAnywhereStrategy
                    post.text_ 10).getD []).map BlogLine.text
              ++ [BlogLine.rule 10],
           PrintEnd.returned)
    ∧ (shortBlog.SetStrategy (some TextWrapStrategy.BreakAnywhereStrategy)).Print
          TextWrapStrategy.Wrap 10
        = ([BlogLine.rule 10, BlogLine.title "My first post", BlogLine.author "John Doe",
            BlogLine.text "This is my", BlogLine.text " first pos", BlogLine.text "t.",
            BlogLine.rule 10], PrintEnd.returned) :=
  ⟨by decide, by decide,
    (set_strategy_swaps_the_algorithm Strategy.AlgorithmInterface
      ({ strategy_ := some Strategy.ConcreteStrategyA } : Context Strategy)
      Strategy.ConcreteStrategyB 2 TextWrapStrategy.Wrap shortBlog
      TextWrapStrategy.BreakAnywhereStrategy 10
      (fun (_ : Unit) (values : List Nat) => values.length) { strategy_ := none } ()
      [1, 2]).2.1.2 (by decide) (by decide),
    by decide⟩

example : (shortBlog.Print TextWrapStrategy.Wrap 10).1
    = [BlogLine.rule 10, BlogLine.title "My first post", BlogLine.author "John Doe",
       BlogLine.text "This is...", BlogLine.rule 10] := by decide

example : shortBlog.Print TextWrapStrategy.Wrap (-1) = ([], PrintEnd.length_error) := by decide

example : (shortBlog.SetStrategy (some TextWrapStrategy.BreakAnywhereStrategy)).Print
    TextWrapStrategy.Wrap 0
    = ([BlogLine.rule 0, BlogLine.title "My first post", BlogLine.author "John Doe"],
       PrintEnd.wrapDidNotReturn) := by decide

end StrategyPattern

namespace Library

/-- C10 (counterexample): two members constructed one after the other with
the same arguments, starting with `nextId == 0`: the first gets id 0 and the
second id 1, and each construction changes the static `Member::nextId`; two
commands constructed one after the other get the counters 1 and 2 from the
global `commandCounter`.  So a construction both reads and modifies state
shared by the whole process. -/
theorem member_ids_come_from_the_static_counter :
    (Member.new ⟨0⟩ none "Ann" "Home" ⟨2000, 1, 1⟩ none).1.id = 0
    ∧ (Member.new (Member.new ⟨0⟩ none "Ann" "Home" ⟨2000, 1, 1⟩ none).2
        none "Ann" "Home" ⟨2000, 1, 1⟩ none).1.id = 1
    ∧ (Member.new ⟨0⟩ none "Ann" "Home" ⟨2000, 1, 1⟩ none).2 ≠ ⟨0⟩
    ∧ (Member.new ⟨0⟩ none "Ann" "Home" ⟨2000, 1, 1⟩ none).1.id
        ≠ (Member.new ⟨7⟩ none "Ann" "Home" ⟨2000, 1, 1⟩ none).1.id
    ∧ (Command.ModifyCommand.new ⟨0⟩ "key_mod").1.counter_ = 1
    ∧ (Command.ModifyCommand.new (Command.ModifyCommand.new ⟨0⟩ "key_mod").2
        "key_mod").1.counter_ = 2
    ∧ (Command.ModifyCommand.new ⟨0⟩ "key_mod").2 ≠ ⟨0⟩ := by
  decide

/-- C10 (amended): the id a newly constructed `Member` receives is the
current value of the static variable `Member::nextId` (what `GetNextId()`
returned just before), and the construction increments that variable (modulo
2^32); the `counter_` a newly constructed `ModifyCommand` or `AppendCommand`
receives is the incremented value of the global variable `commandCounter`,
which the construction writes back.  No allocator object is involved. -/
theorem member_id_is_static_next_id (g : MemberStatics) (type : Option MemberType)
    (name address : String) (birthday : Date) (occupation : Option String)
    (k : Command.Globals) (change : String) :
    ((Member.new g type name address birthday occupation).1.GetId = Member.GetNextId g
      ∧ Member.GetNextId (Member.new g type name address birthday occupation).2
          = (Member.GetNextId g + 1) % 2 ^ 32)
    ∧ ((Command.ModifyCommand.new k change).1.counter_ = k.commandCounter + 1
      ∧ (Command.ModifyCommand.new k change).2.commandCounter = k.commandCounter + 1)
    ∧ ((Command.AppendCommand.new k change).1.counter_ = k.commandCounter + 1
      ∧ (Command.AppendCommand.new k change).2.commandCounter = k.commandCounter + 1) := by
  exact ⟨⟨rfl, rfl⟩, ⟨rfl, rfl⟩, ⟨rfl, rfl⟩⟩

end Library

namespace Library

/-- C11: for every `int` value `year >= 0` and every `month` and `day`,
`MakeYearMonthDay(year, month, day)` returns a `Date` whose fields `year`,
`month` and `day` equal the three arguments; `MakeYearMonthDay(2023, 10, 2)`
has year 2023, month 10 and day 2, as the test requires. -/
theorem make_year_month_day_builds_the_given_date (year : Int) (month day : Nat)
    (hnonneg : 0 ≤ year) (hint : year < 2 ^ 31) :
    ((MakeYearMonthDay year month day).year : Int) = year
    ∧ (MakeYearMonthDay year month day).month = month
    ∧ (MakeYearMonthDay year month day).day = day
    ∧ MakeYearMonthDay 2023 10 2 = { year := 2023, month := 10, day := 2 } := by
  refine ⟨?_, rfl, rfl, by decide⟩
  simp only [MakeYearMonthDay, toUnsignedInt]
  have hmod : year % 2 ^ 32 = year := Int.emod_eq_of_lt hnonneg (by omega)
  rw [hmod]
  exact Int.toNat_of_nonneg hnonneg

/-- C11 (witness): the date of the test, 2023-10-02. -/
theorem make_year_month_day_builds_the_given_date_witness :
    (0 : Int) ≤ 2023 ∧ (2023 : Int) < 2 ^ 31
    ∧ (((MakeYearMonthDay 2023 10 2).year : Int) = 2023
      ∧ (MakeYearMonthDay 2023 10 2).month = 10
      ∧ (MakeYearMonthDay 2023 10 2).day = 2
      ∧ MakeYearMonthDay 2023 10 2 = { year := 2023, month := 10, day := 2 }) :=
  ⟨by decide, by decide,
    make_year_month_day_builds_the_given_date 2023 10 2 (by decide) (by decide)⟩

end Library

namespace Command

/-- C12: for every document and every command (`ModifyCommand`,
`AppendCommand`, or `SimpleCommand` with any of the member functions it can
point to) with any change text and counter, `Execute()` followed by `Undo()`
on the same command leaves the document with the text it had before
`Execute()`; this even holds if the document was changed between the two
calls, since `Undo()` restores the text saved by `Execute()`. -/
theorem undo_restores_text_before_execute (doc other : Document) (m : ModifyCommand)
    (a : AppendCommand) (s : SimpleCommand) :
    ((m.Execute doc).1.Undo (m.Execute doc).2.1).2.1 = doc
    ∧ ((a.Execute doc).1.Undo (a.Execute doc).2.1).2.1 = doc
    ∧ ((s.Execute doc).1.Undo (s.Execute doc).2.1).2.1 = doc
    ∧ ((m.Execute doc).1.Undo other).2.1.text_ = doc.text_
    ∧ ((a.Execute doc).1.Undo other).2.1.text_ = doc.text_
    ∧ ((s.Execute doc).1.Undo other).2.1.text_ = doc.text_ := by
  refine ⟨rfl, rfl, ?_, rfl, rfl, rfl⟩
  cases doc
  rfl

end Command

namespace Singleton

theorem instance_of_some (object constructed : Nat) :
    SingletonNonThreadSafe.instance { instance_ := some object, constructed := constructed }
      = ({ instance_ := some object, constructed := constructed }, object) := rfl

theorem instances_of_some (object constructed : Nat) :
    ∀ n, SingletonNonThreadSafe.instances n
        { instance_ := some object, constructed := constructed }
      = ({ instance_ := some object, constructed := constructed }, List.replicate n object) := by
  intro n
  induction n with
  | zero => rfl
  | succ n ih => simp [SingletonNonThreadSafe.instances, instance_of_some, ih, List.replicate]

/-- C13: from every state of a single-threaded run, and in particular from
program start, any number of calls of `SingletonNonThreadSafe::instance()`
all return the object the first call returned, and the constructor runs at
most once during all of them (exactly once from program start); for `s1` and
`s2` obtained by two calls from program start `check_singleton` reports that
the singleton works. -/
theorem singleton_has_one_instance (s : Process) (n : Nat) :
    (SingletonNonThreadSafe.instances (n + 1) s).2
        = List.replicate (n + 1) (SingletonNonThreadSafe.instance s).2
    ∧ (SingletonNonThreadSafe.instances (n + 1) s).1.constructed ≤ s.constructed + 1
    ∧ (SingletonNonThreadSafe.instances (n + 1) Process.start).1.constructed = 1
    ∧ check_singleton (SingletonNonThreadSafe.instance Process.start).2
        (SingletonNonThreadSafe.instance (SingletonNonThreadSafe.instance Process.start).1).2
        = "Singleton works, both variables contain the same instance." := by
  have hstart : (SingletonNonThreadSafe.instances (n + 1) Process.start).1.constructed = 1 := by
    simp [SingletonNonThreadSafe.instances, SingletonNonThreadSafe.instance, Process.start,
      instances_of_some]
  refine ⟨?_, ?_, hstart, by decide⟩
  · obtain ⟨inst, constructed⟩ := s
    cases inst with
    | none =>
      simp [SingletonNonThreadSafe.instances, SingletonNonThreadSafe.instance,
        instances_of_some, List.replicate]
    | some object =>
      rw [instances_of_some, instance_of_some]
  · obtain ⟨inst, constructed⟩ := s
    cases inst with
    | none =>
      simp [SingletonNonThreadSafe.instances, SingletonNonThreadSafe.instance,
        instances_of_some]
    | some object =>
      rw [instances_of_some]
      simp

end Singleton

namespace Liskov

/-- C14 (counterexample): `Square s{3}; ResizeRectangle(s);`.  After
`SetLength(4)` and `SetWidth(5)` the square reports length 5, width 5 and
area 25, not length 4 and area 20. -/
theorem resized_square_has_length_five_and_area_twenty_five :
    (ResizeRectangle (Square.new (3 : ℚ))).2 = (5, 5, 25)
    ∧ ((Square.new (3 : ℚ)).SetLength 4 |>.SetWidth 5).GetLength ≠ 4
    ∧ ((Square.new (3 : ℚ)).SetLength 4 |>.SetWidth 5).Area ≠ 4 * 5 := by
  refine ⟨?_, ?_, ?_⟩
  · simp [ResizeRectangle, Square.new, Rectangle.SetLength, Rectangle.SetWidth,
      Rectangle.GetLength, Rectangle.GetWidth, Rectangle.Area]
    norm_num
  · simp [Square.new, Rectangle.SetLength, Rectangle.SetWidth, Rectangle.GetLength]
  · simp [Square.new, Rectangle.SetLength, Rectangle.SetWidth, Rectangle.Area]

/-- C14 (amended): for every object whose dynamic type is `Rectangle` and all
values `l` and `w`, after `SetLength(l)` followed by `SetWidth(w)` the object
reports `GetLength() == l`, `GetWidth() == w` and `Area() == l * w`; a `Square` passed as a
`Rectangle` instead reports `GetLength() == w`, `GetWidth() == w` and
`Area() == w * w`, because its setters set both sides. -/
theorem set_length_then_width_on_rectangle_and_on_square {F : Type} [Mul F]
    (r s : Rectangle F) (l w : F)
    (hr : r.dynamicType = Class.Rectangle) (hs : s.dynamicType = Class.Square) :
    (((r.SetLength l).SetWidth w).GetLength = l
        ∧ ((r.SetLength l).SetWidth w).GetWidth = w
        ∧ ((r.SetLength l).SetWidth w).Area = l * w)
    ∧ (((s.SetLength l).SetWidth w).GetLength = w
        ∧ ((s.SetLength l).SetWidth w).GetWidth = w
        ∧ ((s.SetLength l).SetWidth w).Area = w * w) := by
  obtain ⟨t, len, wid⟩ := r
  obtain ⟨t2, len2, wid2⟩ := s
  simp only at hr hs
  subst hr
  subst hs
  exact ⟨⟨rfl, rfl, rfl⟩, ⟨rfl, rfl, rfl⟩⟩

/-- C14 (witness): the two objects of the demo, `Rectangle r{3, 4}` and
`Square s{3}`, with `l = 4` and `w = 5`. -/
theorem set_length_then_width_on_rectangle_and_on_square_witness :
    (Rectangle.new (3 : ℚ) 4).dynamicType = Class.Rectangle
    ∧ (Square.new (3 : ℚ)).dynamicType = Class.Square
    ∧ ((((Rectangle.new (3 : ℚ) 4).SetLength 4).SetWidth 5).GetLength = 4
        ∧ (((Rectangle.new (3 : ℚ) 4).SetLength 4).SetWidth 5).GetWidth = 5
        ∧ (((Rectangle.new (3 : ℚ) 4).SetLength 4).SetWidth 5).Area = 4 * 5)
    ∧ ((((Square.new (3 : ℚ)).SetLength 4).SetWidth 5).GetLength = 5
        ∧ (((Square.new (3 : ℚ)).SetLength 4).SetWidth 5).GetWidth = 5
        ∧ (((Square.new (3 : ℚ)).SetLength 4).SetWidth 5).Area = 5 * 5) :=
  ⟨rfl, rfl,
    set_length_then_width_on_rectangle_and_on_square (Rectangle.new (3 : ℚ) 4)
      (Square.new (3 : ℚ)) 4 5 rfl rfl⟩

end Liskov

namespace StrategyPattern

example : TruncationStrategy.Wrap "This is my first post." 10 = ["This is..."] := by decide

example : BreakAnywhereStrategy.Wrap "abcdefgh" 3 = some ["abc", "def", "gh"] := by decide

example : BreakOnSpaceStrategy.Wrap "my first post" 6 = some ["my", "first", "post"] := by
  decide

example : BreakOnSpaceStrategy.Wrap "abcdefgh" 3 = some ["abc", "efg", ""] := by decide

example : BreakAnywhereStrategy.Wrap "ab" 0 = none := by decide

/-- C15 (failing input): `TruncationStrategy::Wrap("abcd", 2)`.  The text is
longer than the width, `width - 3` is -1 and becomes the largest `size_t` as
the count of `substr`, so the single line returned is the whole text followed
by the dots: 7 characters for a field of width 2. -/
theorem truncation_overflows_field_of_width_two :
    TruncationStrategy.Wrap "abcd" 2 = ["abcd..."]
    ∧ size "abcd..." = 7
    ∧ ¬ (∀ line ∈ TruncationStrategy.Wrap "abcd" 2, (size line : Int) ≤ 2) := by
  decide

/-- C16: for every text and every width, the free function `TruncateLines`,
the lambda installed with `FunBlog::SetStrategy` and the `TruncationStrategy`
of the static strategy slide return the same list of lines as
`TruncationStrategy::Wrap`. -/
theorem truncate_lines_equals_truncation_strategy (text : String) (width : Int) :
    TruncateLines text width = TruncationStrategy.Wrap text width
    ∧ truncateLambda text width = TruncationStrategy.Wrap text width
    ∧ StaticStrategy.TruncationStrategy.Wrap text width = TruncationStrategy.Wrap text width := by
  exact ⟨rfl, rfl, rfl⟩

end StrategyPattern

namespace StrategyPattern

theorem toSizeT_of_nonneg {i : Int} (h0 : 0 ≤ i) (h1 : i < 2 ^ 31) : (toSizeT i : Int) = i := by
  unfold toSizeT
  rw [Int.emod_eq_of_lt h0 (by omega)]
  exact Int.toNat_of_nonneg h0

theorem size_append (a b : String) : size (a ++ b) = size a + size b := by
  simp [size, String.data_append]

theorem lastIndexOf_lt (ch : Char) :
    ∀ (l : List Char) (i : Nat), lastIndexOf ch l = some i → i < l.length := by
  intro l
  induction l with
  | nil => intro i h; simp [lastIndexOf] at h
  | cons c rest ih =>
    intro i h
    unfold lastIndexOf at h
    cases hr : lastIndexOf ch rest with
    | some j =>
      rw [hr] at h
      simp only [Option.some.injEq] at h
      have := ih j hr
      simp only [List.length_cons]
      omega
    | none =>
      rw [hr] at h
      simp only at h
      split at h
      · simp only [Option.some.injEq] at h
        simp only [List.length_cons]
        omega
      · cases h

theorem find_last_of_le (s : String) (ch : Char) (pos p : Nat)
    (h : find_last_of s ch pos = some p) : p ≤ pos := by
  have h1 := lastIndexOf_lt ch _ p h
  have h2 : (s.data.take (pos + 1)).length ≤ pos + 1 := by
    rw [List.length_take]; exact Nat.min_le_left _ _
  omega

theorem breakAnywhere_loop_fits (width : Int) (hw : 1 ≤ toSizeT width) :
    ∀ (fuel : Nat) (remainingText : String) (lines : List String),
      size remainingText < fuel → (∀ l ∈ lines, size l ≤ toSizeT width) →
      ∃ out, BreakAnywhereStrategy.loop width fuel remainingText lines = some out
        ∧ ∀ l ∈ out, size l ≤ toSizeT width := by
  intro fuel
  induction fuel with
  | zero => intro r lines h _; omega
  | succ fuel ih =>
    intro r lines hfuel hlines
    unfold BreakAnywhereStrategy.loop
    by_cases hgt : size r > toSizeT width
    · rw [if_pos hgt]
      apply ih
      · simp only [substrFrom, size, List.length_drop]
        simp only [size] at hgt hfuel
        omega
      · intro l hl
        rcases List.mem_append.1 hl with h | h
        · exact hlines l h
        · simp only [List.mem_singleton] at h
          subst h
          simp only [substr, size, List.drop_zero, List.length_take]
          exact Nat.min_le_left _ _
    · rw [if_neg hgt]
      refine ⟨_, rfl, ?_⟩
      intro l hl
      rcases List.mem_append.1 hl with h | h
      · exact hlines l h
      · simp only [List.mem_singleton] at h
        subst h
        omega

theorem breakOnSpace_loop_fits (width : Int) :
    ∀ (fuel : Nat) (remainingText : String) (lines : List String),
      size remainingText < fuel → (∀ l ∈ lines, size l ≤ toSizeT width) →
      ∃ out, BreakOnSpaceStrategy.loop width fuel remainingText lines = some out
        ∧ ∀ l ∈ out, size l ≤ toSizeT width := by
  intro fuel
  induction fuel with
  | zero => intro r lines h _; omega
  | succ fuel ih =>
    intro r lines hfuel hlines
    unfold BreakOnSpaceStrategy.loop
    by_cases hgt : size r > toSizeT width
    · rw [if_pos hgt]
      have hpos : (match find_last_of r ' ' (toSizeT width) with
          | some p => p
          | none => toSizeT width) ≤ toSizeT width := by
        cases hf : find_last_of r ' ' (toSizeT width) with
        | some p => exact find_last_of_le r ' ' _ p hf
        | none => exact Nat.le_refl _
      generalize (match find_last_of r ' ' (toSizeT width) with
          | some p => p
          | none => toSizeT width) = pos at hpos
      simp only []
      apply ih
      · simp only [substrFrom, size, List.length_drop]
        simp only [size] at hgt hfuel
        omega
      · intro l hl
        rcases List.mem_append.1 hl with h | h
        · exact hlines l h
        · simp only [List.mem_singleton] at h
          subst h
          simp only [substr, size, List.drop_zero, List.length_take]
          exact Nat.le_trans (Nat.min_le_left _ _) hpos
    · rw [if_neg hgt]
      refine ⟨_, rfl, ?_⟩
      intro l hl
      rcases List.mem_append.1 hl with h | h
      · exact hlines l h
      · simp only [List.mem_singleton] at h
        subst h
        omega

/-- What does hold of the three strategies: for every text and every `int`
width of at least 1, `TruncationStrategy::Wrap` returns exactly one line,
which fits the width if the width is at least 3; `BreakAnywhereStrategy::Wrap`
and `BreakOnSpaceStrategy::Wrap` return, and every line they return has at
most `width` characters. -/
theorem wrapped_lines_fit_except_narrow_truncation (text : String) (width : Int)
    (h1 : 1 ≤ width) (hint : width < 2 ^ 31) :
    (TruncationStrategy.Wrap text width).length = 1
    ∧ (3 ≤ width → ∀ line ∈ TruncationStrategy.Wrap text width, (size line : Int) ≤ width)
    ∧ (∃ lines, BreakAnywhereStrategy.Wrap text width = some lines
        ∧ ∀ line ∈ lines, (size line : Int) ≤ width)
    ∧ (∃ lines, BreakOnSpaceStrategy.Wrap text width = some lines
        ∧ ∀ line ∈ lines, (size line : Int) ≤ width) := by
  have hw : (toSizeT width : Int) = width := toSizeT_of_nonneg (by omega) hint
  refine ⟨?_, ?_, ?_, ?_⟩
  · unfold TruncationStrategy.Wrap
    split <;> rfl
  · intro h3 line hline
    unfold TruncationStrategy.Wrap at hline
    split at hline
    · rename_i hle
      simp only [List.mem_singleton] at hline
      subst hline
      omega
    · rename_i hgt
      simp only [List.mem_singleton] at hline
      subst hline
      have hw3 : (toSizeT (width - 3) : Int) = width - 3 :=
        toSizeT_of_nonneg (by omega) (by omega)
      rw [size_append]
      have hdots : size "..." = 3 := by decide
      have htake : size (substr text 0 (toSizeT (width - 3))) ≤ toSizeT (width - 3) := by
        simp only [substr, size, List.drop_zero, List.length_take]
        exact Nat.min_le_left _ _
      rw [hdots]
      omega
  · obtain ⟨out, hout, hfit⟩ := breakAnywhere_loop_fits width (by omega) (size text + 1) text []
      (by omega) (by simp)
    exact ⟨out, hout, fun line hl => by have := hfit line hl; omega⟩
  · obtain ⟨out, hout, hfit⟩ := breakOnSpace_loop_fits width (size text + 1) text []
      (by omega) (by simp)
    exact ⟨out, hout, fun line hl => by have := hfit line hl; omega⟩

end StrategyPattern

namespace CRTP

/-- C17: for each document kind (text, spreadsheet), `Save()` and `SaveAs()`
of the CRTP class write exactly what `Save()` and `SaveAs()` of the
virtual-dispatch class write: the fixed first line, then the line of the
kind's `DoSave`, then `Document saved.` and an empty line. -/
theorem crtp_writes_the_same_as_template_method (d : Document) :
    d.toV2.Save = d.Save ∧ d.toV2.SaveAs = d.SaveAs
    ∧ d.Save = "Saving to existing file.\n" ++ d.DoSave ++ "Document saved.\n" ++ "\n"
    ∧ d.SaveAs = "Asking user for file name.\n" ++ d.DoSave ++ "Document saved.\n" ++ "\n"
    ∧ Document.TextDocument.toV2.Save
        = "Saving to existing file.\n-> Saving text document in DOCX format.\nDocument saved.\n\n"
    ∧ Document.SpreadsheetDocument.toV2.Save
        = "Saving to existing file.\n-> Saving spreadsheet in XLSX format.\nDocument saved.\n\n"
    ∧ Document.TextDocument.toV2.SaveAs
        = "Asking user for file name.\n-> Saving text document in DOCX format.\nDocument saved.\n\n"
    ∧ Document.SpreadsheetDocument.toV2.SaveAs
        = "Asking user for file name.\n-> Saving spreadsheet in XLSX format.\nDocument saved.\n\n" := by
  refine ⟨?_, ?_, ?_, ?_, by decide, by decide, by decide, by decide⟩
  · cases d <;> rfl
  · cases d <;> rfl
  · cases d <;> decide
  · cases d <;> decide

end CRTP

namespace Singleton

theorem sinceLastRun_append_singleton (log : List EngineOutput) (o : EngineOutput) :
    sinceLastRun (log ++ [o])
      = if o = EngineOutput.running then [] else sinceLastRun log ++ [o] := by
  simp [sinceLastRun, List.foldl_append]

/-- After any calls, a flag of the engine is set exactly when its loading
line was written after the last `Running the game engine`. -/
theorem flags_follow_log (cs : List EngineCall) :
    ∀ (e : GameEngine) (log : List EngineOutput),
      (e.level_loaded = true ↔ EngineOutput.loadingLevel ∈ sinceLastRun log) →
      (e.characters_loaded = true ↔ EngineOutput.loadingCharacters ∈ sinceLastRun log) →
      ((e.calls cs).1.level_loaded = true
          ↔ EngineOutput.loadingLevel ∈ sinceLastRun (log ++ (e.calls cs).2))
      ∧ ((e.calls cs).1.characters_loaded = true
          ↔ EngineOutput.loadingCharacters ∈ sinceLastRun (log ++ (e.calls cs).2)) := by
  induction cs with
  | nil => intro e log h1 h2; simpa [GameEngine.calls] using ⟨h1, h2⟩
  | cons c rest ih =>
    intro e log h1 h2
    have hstep : ((e.call c).1.level_loaded = true
          ↔ EngineOutput.loadingLevel ∈ sinceLastRun (log ++ (e.call c).2))
        ∧ ((e.call c).1.characters_loaded = true
          ↔ EngineOutput.loadingCharacters ∈ sinceLastRun (log ++ (e.call c).2)) := by
      cases c with
      | load_level =>
        simp only [GameEngine.call, GameEngine.load_level, sinceLastRun_append_singleton]
        simp [h2]
      | load_characters =>
        simp only [GameEngine.call, GameEngine.load_characters, sinceLastRun_append_singleton]
        simp [h1]
      | run =>
        simp only [GameEngine.call, GameEngine.run]
        cases hl : e.level_loaded <;> cases hc : e.characters_loaded <;>
          simp [sinceLastRun_append_singleton, hl, hc, ← h1, ← h2]
    have := ih (e.call c).1 (log ++ (e.call c).2) hstep.1 hstep.2
    simpa [GameEngine.calls, List.append_assoc] using this

/-- C18: from every state of the game engine, `load_level()` followed by
`load_characters()` gives the same state as `load_characters()` followed by
`load_level()`, and a following `run()` writes `Running the game engine` in
both orders; and after any sequence of calls on a newly constructed engine,
`run()` writes `Running the game engine` if and only if both
`Loading level...` and `Loading characters...` were written after the last
`Running the game engine`, that is, both were loaded since the last
successful run. -/
theorem set_up_order_does_not_matter (e : GameEngine) (handle : Nat) (cs : List EngineCall) :
    (e.load_level.1.load_characters).1 = (e.load_characters.1.load_level).1
    ∧ ((e.load_level.1.load_characters).1.run).2 = [EngineOutput.running]
    ∧ ((e.load_characters.1.load_level).1.run).2 = [EngineOutput.running]
    ∧ ((((GameEngine.new handle).1.calls cs).1.run).2 = [EngineOutput.running]
        ↔ (EngineOutput.loadingLevel ∈ sinceLastRun ((GameEngine.new handle).1.calls cs).2
          ∧ EngineOutput.loadingCharacters
              ∈ sinceLastRun ((GameEngine.new handle).1.calls cs).2)) := by
  refine ⟨rfl, rfl, rfl, ?_⟩
  have h := flags_follow_log cs (GameEngine.new handle).1 []
    (by simp [GameEngine.new, sinceLastRun]) (by simp [GameEngine.new, sinceLastRun])
  simp only [List.nil_append] at h
  rw [← h.1, ← h.2]
  generalize ((GameEngine.new handle).1.calls cs).1 = e1
  cases hl : e1.level_loaded <;> cases hc : e1.characters_loaded <;>
    simp [GameEngine.run, hl, hc]

example : ((GameEngine.new 0).1.calls [.load_characters, .load_level, .run, .run]).2
    = [.loadingCharacters, .loadingLevel, .running, .levelNotLoaded] := by decide

end Singleton

namespace Builder

theorem mapSet_comm {K V : Type} [LinearOrder K] (k1 k2 : K) (v1 v2 : V) (hne : k1 ≠ k2) :
    ∀ m : List (K × V), mapSet (mapSet m k1 v1) k2 v2 = mapSet (mapSet m k2 v2) k1 v1 := by
  intro m
  induction m with
  | nil =>
    rcases lt_or_gt_of_ne hne with h | h
    · simp [mapSet, h, not_lt_of_gt h, hne, Ne.symm hne]
    · simp [mapSet, h, not_lt_of_gt h, hne, Ne.symm hne]
  | cons kv rest ih =>
    obtain ⟨k, v⟩ := kv
    have hne2 : k2 ≠ k1 := Ne.symm hne
    rcases lt_trichotomy k1 k with h1 | h1 | h1 <;>
      rcases lt_trichotomy k2 k with h2 | h2 | h2
    · rcases lt_or_gt_of_ne hne with h | h
      · simp [mapSet, h1, h2, h, not_lt_of_gt h, hne, hne2]
      · simp [mapSet, h1, h2, h, not_lt_of_gt h, hne, hne2]
    · subst h2
      simp [mapSet, h1, not_lt_of_gt h1, hne, hne2]
    · have h12 : k1 < k2 := lt_trans h1 h2
      simp [mapSet, h1, h2, not_lt_of_gt h2, ne_of_gt h2, h12, not_lt_of_gt h12, hne, hne2]
    · subst h1
      simp [mapSet, h2, not_lt_of_gt h2, hne, hne2]
    · exact absurd (h1.trans h2.symm) hne
    · subst h1
      simp [mapSet, h2, not_lt_of_gt h2, ne_of_gt h2, hne, hne2]
    · have h21 : k2 < k1 := lt_trans h2 h1
      simp [mapSet, h1, h2, not_lt_of_gt h1, ne_of_gt h1, h21, not_lt_of_gt h21, hne, hne2]
    · subst h2
      simp [mapSet, h1, not_lt_of_gt h1, ne_of_gt h1, hne, hne2]
    · simp [mapSet, h1, h2, not_lt_of_gt h1, not_lt_of_gt h2, ne_of_gt h1, ne_of_gt h2, ih]

end Builder

namespace Builder

theorem call_keeps_other_fields (b : RequestBuilder) (c : BuilderCall) :
    (c.field ≠ Field.url → (b.call c).url = b.url)
    ∧ (c.field ≠ Field.method → (b.call c).method = b.method)
    ∧ (c.field ≠ Field.headers → (b.call c).headers = b.headers)
    ∧ (c.field ≠ Field.params → (b.call c).params = b.params)
    ∧ (c.field ≠ Field.data → (b.call c).data = b.data)
    ∧ (c.field ≠ Field.timeout → (b.call c).timeout = b.timeout) := by
  cases c <;> refine ⟨?_, ?_, ?_, ?_, ?_, ?_⟩ <;> intro h <;>
    first
      | rfl
      | exact absurd rfl h

theorem calls_keep_unset_fields (cs : List BuilderCall) :
    ∀ b : RequestBuilder,
      ((∀ c ∈ cs, c.field ≠ Field.url) → (b.calls cs).url = b.url)
      ∧ ((∀ c ∈ cs, c.field ≠ Field.method) → (b.calls cs).method = b.method)
      ∧ ((∀ c ∈ cs, c.field ≠ Field.headers) → (b.calls cs).headers = b.headers)
      ∧ ((∀ c ∈ cs, c.field ≠ Field.params) → (b.calls cs).params = b.params)
      ∧ ((∀ c ∈ cs, c.field ≠ Field.data) → (b.calls cs).data = b.data)
      ∧ ((∀ c ∈ cs, c.field ≠ Field.timeout) → (b.calls cs).timeout = b.timeout) := by
  induction cs with
  | nil => intro b; exact ⟨fun _ => rfl, fun _ => rfl, fun _ => rfl, fun _ => rfl,
      fun _ => rfl, fun _ => rfl⟩
  | cons c rest ih =>
    intro b
    obtain ⟨i1, i2, i3, i4, i5, i6⟩ := ih (b.call c)
    obtain ⟨k1, k2, k3, k4, k5, k6⟩ := call_keeps_other_fields b c
    have hcalls : b.calls (c :: rest) = (b.call c).calls rest := rfl
    rw [hcalls]
    refine ⟨?_, ?_, ?_, ?_, ?_, ?_⟩ <;> intro h
    · rw [i1 (fun x hx => h x (List.mem_cons_of_mem _ hx)), k1 (h c (List.mem_cons_self _ _))]
    · rw [i2 (fun x hx => h x (List.mem_cons_of_mem _ hx)), k2 (h c (List.mem_cons_self _ _))]
    · rw [i3 (fun x hx => h x (List.mem_cons_of_mem _ hx)), k3 (h c (List.mem_cons_self _ _))]
    · rw [i4 (fun x hx => h x (List.mem_cons_of_mem _ hx)), k4 (h c (List.mem_cons_self _ _))]
    · rw [i5 (fun x hx => h x (List.mem_cons_of_mem _ hx)), k5 (h c (List.mem_cons_self _ _))]
    · rw [i6 (fun x hx => h x (List.mem_cons_of_mem _ hx)), k6 (h c (List.mem_cons_self _ _))]

/-- C19: any two builder calls that target different fields, or different
header keys, or different parameter keys, commute: after them `send()` passes
the same six arguments to `sendRequest` in either order.  After any chain of
calls on a new `RequestBuilder`, every field that no call of the chain
targets is passed with its default: url `https://example.com`, method `GET`,
no headers, no parameters, empty data, timeout 30.
`RequestBuilder{}.setTimeout(10).send()` calls
`sendRequest("https://example.com", "GET", {}, {}, "", 10)`. -/
theorem builder_calls_commute_and_unset_fields_are_default (b : RequestBuilder)
    (c1 c2 : BuilderCall) (cs : List BuilderCall) (hdiff : c1.different c2) :
    ((b.call c1).call c2).send = ((b.call c2).call c1).send
    ∧ ((∀ c ∈ cs, c.field ≠ Field.url) →
        (({} : RequestBuilder).calls cs).send.url = "https://example.com")
    ∧ ((∀ c ∈ cs, c.field ≠ Field.method) → (({} : RequestBuilder).calls cs).send.method = "GET")
    ∧ ((∀ c ∈ cs, c.field ≠ Field.headers) → (({} : RequestBuilder).calls cs).send.headers = [])
    ∧ ((∀ c ∈ cs, c.field ≠ Field.params) → (({} : RequestBuilder).calls cs).send.params = [])
    ∧ ((∀ c ∈ cs, c.field ≠ Field.data) → (({} : RequestBuilder).calls cs).send.data = "")
    ∧ ((∀ c ∈ cs, c.field ≠ Field.timeout) → (({} : RequestBuilder).calls cs).send.timeout = 30)
    ∧ (({} : RequestBuilder).setTimeout 10).send
        = { url := "https://example.com", method := "GET", headers := [], params := [],
            data := "", timeout := 10 } := by
  obtain ⟨d1, d2, d3, d4, d5, d6⟩ := calls_keep_unset_fields cs {}
  refine ⟨?_, d1, d2, d3, d4, d5, d6, rfl⟩
  cases c1 <;> cases c2 <;>
    first
      | rfl
      | exact False.elim hdiff
      | (simp only [RequestBuilder.call, RequestBuilder.addHeader, RequestBuilder.addParam,
          RequestBuilder.send]
         rw [mapSet_comm _ _ _ _ hdiff])

/-- C19 (witness): two headers with different keys on the builder of the
demo, and the chain that only sets the timeout. -/
theorem builder_calls_commute_and_unset_fields_are_default_witness :
    (BuilderCall.addHeader "Content-Type" "application/json").different
      (BuilderCall.addHeader "Accept" "text/html")
    ∧ (((({} : RequestBuilder).setMethod "POST").call
          (BuilderCall.addHeader "Content-Type" "application/json")).call
            (BuilderCall.addHeader "Accept" "text/html")).send
        = (((({} : RequestBuilder).setMethod "POST").call
          (BuilderCall.addHeader "Accept" "text/html")).call
            (BuilderCall.addHeader "Content-Type" "application/json")).send
    ∧ (({} : RequestBuilder).calls [BuilderCall.setTimeout 10]).send.url
        = "https://example.com" := by
  have hdiff : (BuilderCall.addHeader "Content-Type" "application/json").different
      (BuilderCall.addHeader "Accept" "text/html") := by
    show "Content-Type" ≠ "Accept"
    decide
  have h := builder_calls_commute_and_unset_fields_are_default
    (({} : RequestBuilder).setMethod "POST")
    (BuilderCall.addHeader "Content-Type" "application/json")
    (BuilderCall.addHeader "Accept" "text/html") [BuilderCall.setTimeout 10] hdiff
  exact ⟨hdiff, h.1, h.2.1 (by decide)⟩

end Builder

namespace FareSystem

/-- C20: for each of the four transport kinds and every distance, the
strategy-based `Transport::ComputeFare(distance)` with the strategy of the
kind (`BusFare`, `SubwayFare`, `TrainFare`, `BoatFare`) returns the value
that the switch-based `Transport::CalculateFare(distance)` returns for the
`TransportType` of the kind, whatever the `double` arithmetic is. -/
theorem strategy_fare_equals_switch_fare {D : Type} [Add D] [Mul D] (lit : ℚ → D)
    (distance : D) :
    Transport.ComputeFare lit { fareStrategy_ := some .BusFare } distance
        = some (SwitchTransport.CalculateFare lit { type_ := .BUS } distance)
    ∧ Transport.ComputeFare lit { fareStrategy_ := some .SubwayFare } distance
        = some (SwitchTransport.CalculateFare lit { type_ := .SUBWAY } distance)
    ∧ Transport.ComputeFare lit { fareStrategy_ := some .TrainFare } distance
        = some (SwitchTransport.CalculateFare lit { type_ := .TRAIN } distance)
    ∧ Transport.ComputeFare lit { fareStrategy_ := some .BoatFare } distance
        = some (SwitchTransport.CalculateFare lit { type_ := .BOAT } distance) := by
  exact ⟨rfl, rfl, rfl, rfl⟩

example : Transport.ComputeFare (fun q => q) { fareStrategy_ := some .SubwayFare } 10
    = some (7 / 2 : ℚ) := by
  simp [Transport.ComputeFare, FareCalculationStrategy.CalculateFare]
  norm_num

end FareSystem
